import Mathlib

/-!
Verification development for the ai-travel-assistant backend.

This file shallowly embeds, in Lean 4, the parts of the Python source that
the specified properties are about:

* `services/agent-api/app/guardrails.py` (response guardrails),
* `services/ingestion/app/idempotency.py` and `pipeline.py` (idempotent
  stage handlers),
* `services/ingestion/app/dlq.py` (retry / dead-letter handling and replay),
* `services/mcp-travel-products/app/cache.py`, `retrieval.py` and `main.py`
  (the product-candidates service with its TTL cache),
* `services/mcp-travel-knowledge/app/main.py` (the evidence service),
* `services/mcp-travel-vision/app/vision.py` and `models.py` (vision
  analysis), and
* `services/ingestion/app/sources/graph.py` (knowledge-graph merging).

Python dicts are modelled as association lists in insertion order, machine
floats as rationals, exceptions as `Option`/`Except`, and calls to external
collaborators (Weaviate, OpenAI, subprocesses, queues) as explicit oracle
parameters.  Definitions follow the Python source line by line; theorems
at the end of the file settle the specified properties.
-/

/-! ## Shared string helpers

Python's `str.lower`, `str.strip`, whitespace collapsing and the `in`
substring operator, restricted to the ASCII texts the services exchange.
-/

/-- ASCII whitespace characters recognised by Python's `\s` class and
`str.strip` (space, tab, newline, carriage return, vertical tab, form feed). -/
def isSpaceChar (c : Char) : Bool :=
  c = ' ' || c = '\t' || c = '\n' || c = '\r' || c.toNat = 11 || c.toNat = 12

/-- Python word characters (`\w`), ASCII fragment: letters, digits, underscore. -/
def isWordChar (c : Char) : Bool :=
  c.isAlphanum || c = '_'

/-- `s.strip()` on a character list: drop leading and trailing whitespace. -/
def pyStripList (l : List Char) : List Char :=
  ((l.dropWhile isSpaceChar).reverse.dropWhile isSpaceChar).reverse

/-- `s.strip()` for strings. -/
def pyStrip (s : String) : String :=
  String.mk (pyStripList s.toList)

/-- `s.lower()` on a character list (ASCII case mapping). -/
def pyLowerList (l : List Char) : List Char :=
  l.map Char.toLower

/-- `s.lower()` for strings. -/
def pyLower (s : String) : String :=
  String.mk (pyLowerList s.toList)

/-- Helper for whitespace collapsing; the flag records whether the previous
character was whitespace (and so already emitted the single space). -/
def collapseWsAux : Bool → List Char → List Char
  | _, [] => []
  | prevWs, c :: r =>
    if isSpaceChar c then
      if prevWs then collapseWsAux true r else ' ' :: collapseWsAux true r
    else c :: collapseWsAux false r

/-- `re.sub(r"\s+", " ", s)`: collapse each maximal run of whitespace into a
single space. -/
def collapseWs (l : List Char) : List Char :=
  collapseWsAux false l

/-- Substring test over character lists, the semantics of Python's
`pat in hay` for strings. -/
def hasSubstrList (hay pat : List Char) : Bool :=
  pat.isPrefixOf hay ||
    match hay with
    | [] => false
    | _ :: r => hasSubstrList r pat

/-- Python's `pat in hay` for strings. -/
def strContains (hay pat : String) : Bool :=
  hasSubstrList hay.toList pat.toList

/-! ## Guardrails (`services/agent-api/app/guardrails.py`)

The factual-claim regexes are hand-compiled to explicit scanners over the
lowercased character list (the patterns are ASCII and all carry `re.I`,
so matching the lowercased pattern against the lowercased text is
equivalent).  `re.search` succeeds iff some position admits a match, which
is what the scanners decide.
-/

/-- The fixed safe-fallback string `SAFE_FALLBACK` from `guardrails.py`. -/
def SAFE_FALLBACK : String :=
  "Não tenho fontes suficientes para confirmar essas informações."

/-- Skip `\s*`. -/
def dropSpaces (l : List Char) : List Char :=
  l.dropWhile isSpaceChar

/-- After `\s*`, is the next character a digit?  (`\s*\d`). -/
def digitAfterSpaces (l : List Char) : Bool :=
  match dropSpaces l with
  | c :: _ => c.isDigit
  | [] => false

/-- One alternative of `CURRENCY_PATTERN` matches starting at this position
(text already lowercased):
`r\$\s*\d | usd\s*\d | brl\s*\d | \$\s*\d | \d+\s*(?:r\$|usd|brl)`.
For the last alternative a match exists iff some single digit is followed by
`\s*` and a currency suffix (take the final digit of the `\d+` run). -/
def currencyAt (l : List Char) : Bool :=
  (match l with
   | 'r' :: '$' :: r => digitAfterSpaces r
   | _ => false) ||
  (match l with
   | 'u' :: 's' :: 'd' :: r => digitAfterSpaces r
   | _ => false) ||
  (match l with
   | 'b' :: 'r' :: 'l' :: r => digitAfterSpaces r
   | _ => false) ||
  (match l with
   | '$' :: r => digitAfterSpaces r
   | _ => false) ||
  (match l with
   | c :: r =>
     c.isDigit &&
       (let r2 := dropSpaces r
        (['r', '$'].isPrefixOf r2 || ['u', 's', 'd'].isPrefixOf r2 ||
          ['b', 'r', 'l'].isPrefixOf r2))
   | [] => false)

/-- Run a positional matcher at every suffix (the semantics of `re.search`). -/
def scanAny (p : List Char → Bool) : List Char → Bool
  | [] => p []
  | c :: r => p (c :: r) || scanAny p r

/-- Run a positional matcher that also sees the previous character (needed
for `\b`) at every suffix. -/
def scanWithPrev (p : Option Char → List Char → Bool) : Option Char → List Char → Bool
  | _, [] => false
  | prev, c :: r => p prev (c :: r) || scanWithPrev p (some c) r

/-- `_has_currency`: `CURRENCY_PATTERN.search(text)` with `re.I`. -/
def hasCurrency (text : String) : Bool :=
  scanAny currencyAt (pyLowerList text.toList)

/-- `\b` holds before the current position. -/
def boundaryBefore : Option Char → Bool
  | none => true
  | some c => !isWordChar c

/-- `\b` holds after the consumed prefix, i.e. the remainder starts with a
non-word character or is empty. -/
def boundaryAfter : List Char → Bool
  | [] => true
  | c :: _ => !isWordChar c

/-- `\d{min,max}` followed by a continuation: some run of `n` digits with
`min ≤ n ≤ max` is consumed and the continuation accepts the rest. -/
def digitsRange (mn mx : Nat) (l : List Char) (k : List Char → Bool) : Bool :=
  (if mn = 0 then k l else false) ||
    match l, mx with
    | c :: r, m + 1 => c.isDigit && digitsRange (mn - 1) m r k
    | _, _ => false

/-- The slash-or-dash date separator class. -/
def isDateSep (c : Char) : Bool :=
  c = '/' || c = '-'

/-- `\b\d{1,2}S\d{1,2}S\d{2,4}\b`, with `S` the slash-or-dash class, matches
at this position. -/
def dateSlashAt (prev : Option Char) (l : List Char) : Bool :=
  boundaryBefore prev &&
    digitsRange 1 2 l fun r1 =>
      match r1 with
      | s1 :: r2 =>
        isDateSep s1 &&
          digitsRange 1 2 r2 fun r3 =>
            match r3 with
            | s2 :: r4 => isDateSep s2 && digitsRange 2 4 r4 boundaryAfter
            | [] => false
      | [] => false

/-- `\b\d{4}-\d{2}-\d{2}\b` matches at this position. -/
def dateIsoAt (prev : Option Char) (l : List Char) : Bool :=
  boundaryBefore prev &&
    digitsRange 4 4 l fun r1 =>
      match r1 with
      | '-' :: r2 =>
        digitsRange 2 2 r2 fun r3 =>
          match r3 with
          | '-' :: r4 => digitsRange 2 2 r4 boundaryAfter
          | _ => false
      | _ => false

/-- Consume `\d+` (one or more digits), returning the rest. -/
def digitsPlus : List Char → Option (List Char)
  | c :: r => if c.isDigit then some (r.dropWhile Char.isDigit) else none
  | [] => none

/-- The time-suffix alternation `(?:am|pm|h|horas?)` followed by `\b`
(text lowercased). -/
def timeSuffixThenBoundary (l : List Char) : Bool :=
  (['a', 'm'].isPrefixOf l && boundaryAfter (l.drop 2)) ||
  (['p', 'm'].isPrefixOf l && boundaryAfter (l.drop 2)) ||
  (['h'].isPrefixOf l && boundaryAfter (l.drop 1)) ||
  (['h', 'o', 'r', 'a'].isPrefixOf l && boundaryAfter (l.drop 4)) ||
  (['h', 'o', 'r', 'a', 's'].isPrefixOf l && boundaryAfter (l.drop 5))

/-- `\b\d+\s*(?:am|pm|h|horas?)\b` matches at this position. -/
def timeAt (prev : Option Char) (l : List Char) : Bool :=
  boundaryBefore prev &&
    match digitsPlus l with
    | some r => timeSuffixThenBoundary (dropSpaces r)
    | none => false

/-- A `\b`-delimited literal token (already lowercased) matches here. -/
def wordTokenAt (tok : List Char) (prev : Option Char) (l : List Char) : Bool :=
  boundaryBefore prev && tok.isPrefixOf l && boundaryAfter (l.drop tok.length)

/-- `_looks_factual`: any of `FACTUAL_PATTERNS` searches successfully with
`re.I` — the `\(Source:` literal, the two date shapes, the time shape, and
the modal tokens `must`, `requires?`, `rule[s]?`. -/
def looksFactual (text : String) : Bool :=
  let low := pyLowerList text.toList
  hasSubstrList low "(source:".toList ||
  scanWithPrev dateSlashAt none low ||
  scanWithPrev dateIsoAt none low ||
  scanWithPrev timeAt none low ||
  scanWithPrev (wordTokenAt "must".toList) none low ||
  scanWithPrev (wordTokenAt "require".toList) none low ||
  scanWithPrev (wordTokenAt "requires".toList) none low ||
  scanWithPrev (wordTokenAt "rule".toList) none low ||
  scanWithPrev (wordTokenAt "rules".toList) none low

/-- `BUCKET_KEYWORDS`, in source (insertion) order. -/
def BUCKET_KEYWORDS : List (String × List String) :=
  [("tickets", ["ingresso", "ticket", "pass", "passes", "bilhete"]),
   ("hotel", ["hotel", "hospedagem", "accommodation", "stay", "reserva"]),
   ("insurance", ["seguro", "insurance"]),
   ("esim", ["esim", "e-sim", "chip"]),
   ("transport", ["transporte", "transport", "voo", "flight", "carro", "car"]),
   ("planner", ["planner", "planejador", "roteiro"]),
   ("shopping", ["comprar", "buy", "shopping"])]

/-- The `addon` dict.  The agent builds it with string values for
`product_id`, `summary`, `link`, `merchant`; `primary_category` and
`categories` are read defensively by the guardrails.  `none` fields model
absent keys. -/
structure AddonD where
  product_id : Option String := none
  summary : Option String := none
  primary_category : Option String := none
  merchant : Option String := none
  link : Option String := none
  categories : Option (List String) := none
deriving DecidableEq

/-- Python dict truthiness for an addon: `if addon:` is false exactly for the
empty dict, i.e. when no key is present. -/
def AddonD.isEmptyDict (a : AddonD) : Bool :=
  a.product_id.isNone && a.summary.isNone && a.primary_category.isNone &&
    a.merchant.isNone && a.link.isNone && a.categories.isNone

/-- `infer_addon_bucket`: join `summary`, `primary_category`, `merchant`
(lowercased), append the joined `categories` (lowercased), and return the
first bucket any of whose keywords occurs as a substring. -/
def inferAddonBucket (a : AddonD) : Option String :=
  let combined :=
    pyLower (String.intercalate " "
        [a.summary.getD "", a.primary_category.getD "", a.merchant.getD ""])
      ++ " " ++ pyLower (String.intercalate " " (a.categories.getD []))
  (BUCKET_KEYWORDS.find? fun bk => bk.2.any fun kw => strContains combined kw).map
    Prod.fst

/-- `_user_requested_bucket`: some keyword of the bucket occurs in the
lowercased user query. -/
def userRequestedBucket (user_query : String) (bucket : String) : Bool :=
  let q := pyLower user_query
  ((BUCKET_KEYWORDS.lookup bucket).getD []).any fun kw => strContains q kw

/-- The assembled response consumed by `validate_and_fix`
(`{session_id, request_id, answer_text, citations, addon}` as produced by
`run_pipeline_raw`). -/
structure AgentResponse where
  session_id : String
  request_id : String
  answer_text : String
  citations : List String
  addon : Option AddonD
deriving DecidableEq

/-- `validate_and_fix(response, user_query)`. -/
def validateAndFix (response : AgentResponse) (user_query : String) : AgentResponse :=
  let answer := response.answer_text
  let citations := response.citations
  let addon := response.addon
  let has_citations := citations.length > 0
  let out :=
    if !has_citations then
      if hasCurrency answer then
        { response with answer_text := SAFE_FALLBACK, citations := [] }
      else if looksFactual answer || strContains answer "(Source:" then
        { response with answer_text := SAFE_FALLBACK, citations := [] }
      else response
    else response
  match addon with
  | some a =>
    if !a.isEmptyDict then
      match inferAddonBucket a with
      | some bucket =>
        if !userRequestedBucket user_query bucket then { out with addon := none }
        else out
      | none => out
    else out
  | none => out

/-! ## Ingestion idempotency (`services/ingestion/app/idempotency.py`)

The module-level `_processed` set is threaded explicitly as a list of keys
with set semantics (membership only). -/

/-- `build_idempotency_key(content_source_id, stage)`:
`f"{content_source_id}:{stage}"`. -/
def buildIdempotencyKey (content_source_id stage : String) : String :=
  content_source_id ++ ":" ++ stage

/-- `already_processed(key)`. -/
def alreadyProcessed (key : String) (processed : List String) : Bool :=
  key ∈ processed

/-- `mark_processed(key)`. -/
def markProcessed (key : String) (processed : List String) : List String :=
  key :: processed

/-! ## Ingestion pipeline stages (`services/ingestion/app/pipeline.py`)

Stage payloads are Python dicts of heterogeneous values; they are modelled
as association lists over a small JSON-like value type.  External effects
(the yt-dlp subtitle fetch, the LLM enrichment, the Weaviate writes) are
oracle parameters; a raised exception is the oracle's `.error` case and
propagates as no-advance without marking the idempotency key. -/

/-- Python values stored in stage payload dicts. -/
inductive PVal where
  | null
  | s (v : String)
  | b (v : Bool)
  | n (v : ℚ)
  | list (l : List PVal)
  | obj (l : List (String × PVal))

/-- First-match association-list lookup (Python `dict.get` on the payload
model; insertion order is preserved and keys are unique in real dicts). -/
def alookup {β : Type _} : List (String × β) → String → Option β
  | [], _ => none
  | (k', v) :: rest, k => if k' = k then some v else alookup rest k

/-- `payload.get(key)`. -/
def pget (payload : List (String × PVal)) (key : String) : Option PVal :=
  alookup payload key

/-- Python truthiness of a payload value. -/
def pvTruthy : PVal → Bool
  | .null => false
  | .s v => v ≠ ""
  | .b v => v
  | .n v => v ≠ 0
  | .list l => !l.isEmpty
  | .obj l => !l.isEmpty

/-- The ingestion event shape (`app/events.py`, `IngestionEventBase`). -/
structure IngestEvent where
  event_id : String
  content_source_id : String
  stage : String
  payload : List (String × PVal)
  retry_count : Nat
  max_retries : Nat
  error : Option String

/-- `_default_chunk_params(p)`. -/
def defaultChunkParams (p : List (String × PVal)) : List (String × PVal) :=
  [("chunk_max_chars", (pget p "chunk_max_chars").getD (.n 1200)),
   ("chunk_min_chars", (pget p "chunk_min_chars").getD (.n 350)),
   ("chunk_max_duration_s", (pget p "chunk_max_duration_s").getD (.n 75)),
   ("chunk_min_duration_s", (pget p "chunk_min_duration_s").getD (.n 25)),
   ("gap_split_s", (pget p "gap_split_s").getD (.n (5 / 2)))]

/-- `handle_fetch(event)`, instrumented over the idempotency store.

`fetchYt` is the `fetch_youtube_transcript` collaborator returning
`(segments, lang, video_metadata)`; its `.error` case models a raised
exception (no advance, key not marked).  `newId` supplies `str(uuid4())`.
Returns the emitted next event (or `none`) and the updated store. -/
def handleFetch (event : IngestEvent) (fetchYt : Except Unit (PVal × PVal × PVal))
    (newId : String) (processed : List String) :
    Option IngestEvent × List String :=
  match pget event.payload "__fail__" with
  | some (.b true) => (none, processed)
  | _ =>
    let key := buildIdempotencyKey event.content_source_id "transcript"
    if alreadyProcessed key processed then (none, processed)
    else
      match pget event.payload "source_type" with
      | some (.s "youtube") =>
        if !((pget event.payload "video_url").map pvTruthy).getD false then
          (none, processed)
        else
          match fetchYt with
          | .error _ => (none, processed)
          | .ok (segments, lang, video_metadata) =>
            let payload :=
              [("source_type", PVal.s "youtube"),
               ("segments", segments),
               ("lang", lang),
               ("video_metadata", video_metadata),
               ("destination", (pget event.payload "destination").getD (.s "")),
               ("playlist_url", (pget event.payload "playlist_url").getD (.s "")),
               ("playlist_name", (pget event.payload "playlist_name").getD (.s "")),
               ("creator_tier", (pget event.payload "creator_tier").getD (.s "")),
               ("enrich_model", (pget event.payload "enrich_model").getD (.s "gpt-4.1-mini"))]
              ++ defaultChunkParams event.payload
            (some { event_id := newId,
                    content_source_id := event.content_source_id,
                    stage := "transcript",
                    payload := payload,
                    retry_count := event.retry_count,
                    max_retries := event.max_retries,
                    error := event.error },
             markProcessed key processed)
      | some (.s "products") =>
        if !((pget event.payload "products").map pvTruthy).getD false then
          (none, processed)
        else
          let payload :=
            [("source_type", PVal.s "products"),
             ("products", (pget event.payload "products").getD (.list [])),
             ("enrich_model", (pget event.payload "enrich_model").getD (.s "gpt-4.1-mini"))]
          (some { event_id := newId,
                  content_source_id := event.content_source_id,
                  stage := "transcript",
                  payload := payload,
                  retry_count := event.retry_count,
                  max_retries := event.max_retries,
                  error := event.error },
           markProcessed key processed)
      | some .null =>
        (some { event_id := newId,
                content_source_id := event.content_source_id,
                stage := "transcript",
                payload := [("text", .s "mock transcript")],
                retry_count := event.retry_count,
                max_retries := event.max_retries,
                error := event.error },
         markProcessed key processed)
      | some _ => (none, processed)
      | none =>
        (some { event_id := newId,
                content_source_id := event.content_source_id,
                stage := "transcript",
                payload := [("text", .s "mock transcript")],
                retry_count := event.retry_count,
                max_retries := event.max_retries,
                error := event.error },
         markProcessed key processed)

/-- `handle_write(event)`, instrumented over the idempotency store.

`writeOracle` is the Weaviate write collaborator (`write_youtube_to_weaviate`
or `write_products_to_weaviate`, including the pydantic re-parsing of the
card dicts); its `.error` case models a raised exception.  Returns the
updated store and the number of `_write_events` records appended (the
source's own side-effecting-write instrumentation). -/
def handleWrite (event : IngestEvent) (writeOracle : Except Unit Unit)
    (processed : List String) : List String × Nat :=
  let key := buildIdempotencyKey event.content_source_id "write"
  if alreadyProcessed key processed then (processed, 0)
  else
    match pget event.payload "source_type" with
    | some (.s "youtube") =>
      match writeOracle with
      | .error _ => (processed, 0)
      | .ok _ => (markProcessed key processed, 1)
    | some (.s "products") =>
      match writeOracle with
      | .error _ => (processed, 0)
      | .ok _ => (markProcessed key processed, 1)
    | _ => (markProcessed key processed, 1)

/-- Deliver the same event to `handle_fetch` `n` times in sequence (the
duplicate-delivery scenario); returns how many deliveries advanced (returned
a next event) and the final store. -/
def runFetchTrace (event : IngestEvent) (fetchYt : Except Unit (PVal × PVal × PVal))
    (ids : Nat → String) (processed : List String) : Nat → Nat × List String
  | 0 => (0, processed)
  | n + 1 =>
    let r := handleFetch event fetchYt (ids n) processed
    let rest := runFetchTrace event fetchYt ids r.2 n
    ((if r.1.isSome then 1 else 0) + rest.1, rest.2)

/-- Deliver the same event to `handle_write` `n` times in sequence; returns
the total number of side-effecting writes and the final store. -/
def runWriteTrace (event : IngestEvent) (writeOracle : Except Unit Unit)
    (processed : List String) : Nat → Nat × List String
  | 0 => (0, processed)
  | n + 1 =>
    let r := handleWrite event writeOracle processed
    let rest := runWriteTrace event writeOracle r.1 n
    (r.2 + rest.1, rest.2)

/-! ## Retry and dead-letter queue (`services/ingestion/app/dlq.py`) -/

/-- The in-memory `_requeue` and `DLQ` lists. -/
structure QueueState where
  requeue : List IngestEvent
  dlq : List IngestEvent

/-- `handle_failure(event, error_msg)`: increment `retry_count`; requeue when
still under `max_retries`, else append to the DLQ. -/
def handleFailure (event : IngestEvent) (error_msg : String) (q : QueueState) :
    QueueState :=
  let retry_count := event.retry_count + 1
  let doc := { event with retry_count := retry_count, error := some error_msg }
  if retry_count < event.max_retries then
    { q with requeue := q.requeue ++ [doc] }
  else
    { q with dlq := q.dlq ++ [doc] }

/-- The failed document produced by one `handle_failure` call (what gets
requeued and redelivered). -/
def bumpFailure (error_msg : String) (event : IngestEvent) : IngestEvent :=
  { event with retry_count := event.retry_count + 1, error := some error_msg }

/-- The event after `k` consecutive failures of the same message. -/
def failureChain (event : IngestEvent) (error_msg : String) : Nat → IngestEvent
  | 0 => event
  | k + 1 => bumpFailure error_msg (failureChain event error_msg k)

/-- `replay_dlq_to_requeue()`: drain the DLQ into the requeue in FIFO order,
returning how many events were moved. -/
def replayDlqToRequeue (q : QueueState) : QueueState × Nat :=
  ({ requeue := q.requeue ++ q.dlq, dlq := [] }, q.dlq.length)

/-! ## Product-candidates service (`services/mcp-travel-products/app`)

`cache.py`, `retrieval.py` and the `/mcp/retrieve_product_candidates`
endpoint of `main.py`.  The module-level `_store` and the wall clock are
threaded explicitly; the Weaviate `near_text` query plus adapter mapping is
an oracle.  Metrics and logging do not affect the data flow and are
reflected in the outcome record's flags. -/

/-- `_normalize_string(s)`: trim, lowercase, collapse internal whitespace;
`None` becomes the empty string. -/
def normalizeString (s : Option String) : String :=
  match s with
  | none => ""
  | some v => String.mk (collapseWs (pyLowerList (pyStrip v).toList))

/-- `build_cache_key(query_signature, market, destination, lang)`
(products `cache.py`): join of the normalized parts with `"|"`;
`min_confidence` is deliberately not part of the key. -/
def buildProductCacheKey (query_signature : String)
    (market destination lang : Option String) : String :=
  String.intercalate "|"
    [normalizeString (some query_signature), normalizeString market,
     normalizeString destination, normalizeString lang]

/-- `ProductScore`. -/
structure ProductScoreM where
  distance : Option ℚ := none
  rank : Option Nat := none
deriving DecidableEq

/-- `ProductCandidate` (floats as rationals). -/
structure ProductCandidateM where
  product_id : String
  summary : String
  merchant : String
  link : String
  categories : List String
  primary_category : Option String := none
  triggers : Option (List String) := none
  constraints : Option (List String) := none
  affiliate_priority : Option ℚ := none
  user_value : Option ℚ := none
  confidence : ℚ
  score : Option ProductScoreM := none
deriving DecidableEq

/-- `ProductRequest`. -/
structure ProductRequestM where
  query_signature : String
  destination : Option String := none
  market : Option String := none
  lang : Option String := none
  limit : Option Nat := none
  min_confidence : Option ℚ := none
deriving DecidableEq

/-- `ProductCandidatesResponse`. -/
structure ProductCandidatesResponseM where
  x_contract_version : String
  request : ProductRequestM
  candidates : List ProductCandidateM
deriving DecidableEq

/-- The products TTL-cache `_store`: key, cached candidate list (the stored
`{"candidates": [...]}` value), and `expires_at`. -/
abbrev ProductStore : Type :=
  List (String × List ProductCandidateM × ℤ)

/-- Update the value bound to an existing key in place (Python dict
assignment keeps insertion position). -/
def aupdate {β : Type _} : List (String × β) → String → β → List (String × β)
  | [], _, _ => []
  | (k', v') :: rest, k, v =>
    if k' = k then (k', v) :: rest else (k', v') :: aupdate rest k v

/-- Remove the binding of a key (Python `del`). -/
def aremove {β : Type _} : List (String × β) → String → List (String × β)
  | [], _ => []
  | (k', v') :: rest, k =>
    if k' = k then rest else (k', v') :: aremove rest k

/-- Python dict assignment: overwrite in place or append. -/
def dictSet {β : Type _} (m : List (String × β)) (k : String) (v : β) :
    List (String × β) :=
  if (alookup m k).isSome then aupdate m k v else m ++ [(k, v)]

/-- `cache.get(key)` at time `now`: return the live value, lazily evicting
an expired entry.  Returns the value (if any) and the possibly-updated
store. -/
def cacheGet (store : ProductStore) (key : String) (now : ℤ) :
    Option (List ProductCandidateM) × ProductStore :=
  match alookup store key with
  | none => (none, store)
  | some (v, expires_at) =>
    if now ≥ expires_at then (none, aremove store key) else (some v, store)

/-- `cache.set_(key, value)` at time `now` with the configured TTL. -/
def cacheSet (store : ProductStore) (key : String)
    (value : List ProductCandidateM) (now ttl : ℤ) : ProductStore :=
  dictSet store key (value, now + ttl)

/-- Pure lookup used to state liveness of an entry at a time (the value
`cache.get` would return, without the eviction side effect). -/
def cachePeek (store : ProductStore) (key : String) (now : ℤ) :
    Option (List ProductCandidateM) :=
  match alookup store key with
  | none => none
  | some (v, expires_at) => if now ≥ expires_at then none else some v

/-- `_filter_by_min_confidence(candidates, min_confidence)`. -/
def filterByMinConfidence (candidates : List ProductCandidateM)
    (min_confidence : Option ℚ) : List ProductCandidateM :=
  match min_confidence with
  | none => candidates
  | some m => candidates.filter fun c => c.confidence ≥ m

/-- `_stub_candidates()` from `retrieval.py`. -/
def stubCandidates : List ProductCandidateM :=
  [{ product_id := "stub-product-01",
     summary := "Stub product summary for when Weaviate is unavailable (min 10 chars).",
     merchant := "Stub Merchant",
     link := "https://example.com/stub1",
     categories := ["stub"],
     primary_category := some "stub",
     triggers := some ["stub"],
     constraints := some [],
     affiliate_priority := some (1 / 2),
     user_value := some (1 / 2),
     confidence := 1 / 2,
     score := some { distance := some 0, rank := some 1 } }]

/-- `retrieve_product_cards_with_fallback(client, query_signature, limit,
min_confidence=None)`: the Weaviate `near_text` query plus adapter mapping
is the oracle `query`; `client = none` models a failed connection, the
oracle's `.error` a raised query.  Returns `(candidates,
weaviate_fallback)`. -/
def retrieveProductCardsWithFallback
    (client : Option (String → Nat → Except Unit (List ProductCandidateM)))
    (query_signature : String) (limit : Nat) :
    List ProductCandidateM × Bool :=
  match client with
  | none => (stubCandidates, true)
  | some query =>
    match query query_signature (min limit 20) with
    | .error _ => (stubCandidates, true)
    | .ok candidates =>
      if candidates.isEmpty then (stubCandidates, true)
      else (candidates.take (min limit 3), false)

/-- Outcome of one call to the `/mcp/retrieve_product_candidates`
endpoint: the response, the updated cache store, and the recorded
cache-hit / backend-fallback flags (`backendCalled` is the complement of
the cache-hit flag: the backend helper runs exactly on a miss). -/
structure ProductOutcome where
  resp : ProductCandidatesResponseM
  store : ProductStore
  backendCalled : Bool
  cacheHit : Bool
  weaviateFallback : Bool
deriving DecidableEq

/-- `retrieve_product_candidates(request, req)` (`main.py`), with the
backend helper abstracted as `backend : query_signature → limit →
(candidates, weaviate_fallback)` (its composition with
`retrieve_product_cards_with_fallback` is `productsBackend` below). -/
def retrieveProductCandidates
    (backend : String → Nat → List ProductCandidateM × Bool) (ttl : ℤ)
    (store : ProductStore) (now : ℤ) (req : ProductRequestM) : ProductOutcome :=
  let key := buildProductCacheKey req.query_signature req.market
    req.destination req.lang
  let got := cacheGet store key now
  match got.1 with
  | some raw =>
    { resp := { x_contract_version := "1.0", request := req,
                candidates := filterByMinConfidence raw req.min_confidence },
      store := got.2, backendCalled := false, cacheHit := true,
      weaviateFallback := false }
  | none =>
    let limit := match req.limit with
      | none => 10
      | some l => if l = 0 then 10 else l
    let r := backend req.query_signature limit
    let store2 := cacheSet got.2 key r.1 now ttl
    { resp := { x_contract_version := "1.0", request := req,
                candidates := filterByMinConfidence r.1 req.min_confidence },
      store := store2, backendCalled := true, cacheHit := false,
      weaviateFallback := r.2 }

/-- The endpoint's actual backend: `retrieval.get_client()` result plus the
query oracle, composed through `retrieve_product_cards_with_fallback` with
`min_confidence=None`. -/
def productsBackend
    (client : Option (String → Nat → Except Unit (List ProductCandidateM)))
    (query_signature : String) (limit : Nat) : List ProductCandidateM × Bool :=
  retrieveProductCardsWithFallback client query_signature limit

/-! ## Travel-evidence service (`services/mcp-travel-knowledge/app/main.py`)

The evidence-card payload is opaque to the properties below and is a type
parameter.  The backend oracle is `_fetch_evidence_cards` (Weaviate
retrieval plus adapter mapping); its `.error` case is a raised exception,
which the endpoint recovers into an empty-evidence fallback response. -/

/-- Modelled from the spec: the knowledge service's cache module
(`app.cache` imported by `mcp-travel-knowledge/app/main.py`) is not present
under `src/`; per §4.2 of the spec it is the universal TTL cache with key
tuple `(user_query, destination, lang, strategy_version)` normalized by
trim / collapse-whitespace / lowercase with `None` as the empty string and
joined like the sibling services' caches (`"|"`). -/
def buildEvidenceCacheKey (user_query : String)
    (destination lang : Option String) (strategy_version : String) : String :=
  String.intercalate "|"
    [normalizeString (some user_query), normalizeString destination,
     normalizeString lang, normalizeString (some strategy_version)]

/-- `RetrieveTravelEvidenceRequest`: the request fields the endpoint reads.
`strategy_params` is an optional string-keyed dict. -/
structure EvidenceRequestM where
  user_query : String
  destination : Option String := none
  lang : Option String := none
  debug : Bool := false
  strategy_params : Option (List (String × String)) := none
deriving DecidableEq

/-- `_strategy_params_version(payload)`: `strategy_params.version` or
`"v0"`. -/
def strategyParamsVersion (req : EvidenceRequestM) : String :=
  match req.strategy_params with
  | none => "v0"
  | some params => (alookup params "version").getD "v0"

/-- The stored cache value and response payload of the evidence endpoint,
over an opaque evidence-card type `ε`. -/
structure EvidenceCacheValue (ε : Type) where
  evidence : List ε
  expanded_queries : Option (List String)
  debug : Option (List (String × ℚ))

/-- `RetrieveTravelEvidenceResponse` over an opaque card type. -/
structure EvidenceResponseM (ε : Type) where
  x_contract_version : String
  request : EvidenceRequestM
  expanded_queries : Option (List String)
  evidence : List ε
  debug : Option (List (String × ℚ))

/-- The knowledge service's TTL-cache store. -/
abbrev EvidenceStore (ε : Type) : Type :=
  List (String × EvidenceCacheValue ε × ℤ)

/-- Knowledge-cache `get` at time `now` (same universal TTL cache shape). -/
def evidenceCacheGet {ε : Type} (store : EvidenceStore ε) (key : String)
    (now : ℤ) : Option (EvidenceCacheValue ε) × EvidenceStore ε :=
  match alookup store key with
  | none => (none, store)
  | some (v, expires_at) =>
    if now ≥ expires_at then (none, aremove store key) else (some v, store)

/-- Outcome of one call to `/mcp/retrieve_travel_evidence`. -/
structure EvidenceOutcome (ε : Type) where
  resp : EvidenceResponseM ε
  store : EvidenceStore ε
  cacheHit : Bool
  weaviateFallback : Bool

/-- `retrieve_travel_evidence(request, payload)` (`main.py`): cache lookup,
then `_fetch_evidence_cards` guarded by the try/except that converts any
backend exception into an empty-evidence fallback response without caching
it. -/
def retrieveTravelEvidence {ε : Type} (backend : String → Except Unit (List ε))
    (ttl : ℤ) (store : EvidenceStore ε) (now : ℤ) (req : EvidenceRequestM) :
    EvidenceOutcome ε :=
  let key := buildEvidenceCacheKey req.user_query req.destination req.lang
    (strategyParamsVersion req)
  let got := evidenceCacheGet store key now
  match got.1 with
  | some cached =>
    { resp := { x_contract_version := "1.0", request := req,
                expanded_queries := cached.expanded_queries,
                evidence := cached.evidence, debug := cached.debug },
      store := got.2, cacheHit := true, weaviateFallback := false }
  | none =>
    match backend req.user_query with
    | .ok evidence_items =>
      let dbg := if req.debug
        then some [("evidence_count", (evidence_items.length : ℚ))] else none
      let value : EvidenceCacheValue ε :=
        { evidence := evidence_items, expanded_queries := none, debug := dbg }
      { resp := { x_contract_version := "1.0", request := req,
                  expanded_queries := none, evidence := evidence_items,
                  debug := dbg },
        store := dictSet got.2 key (value, now + ttl),
        cacheHit := false, weaviateFallback := false }
    | .error _ =>
      { resp := { x_contract_version := "1.0", request := req,
                  expanded_queries := none, evidence := [],
                  debug := if req.debug
                    then some [("evidence_count", 0)] else none },
        store := got.2, cacheHit := false, weaviateFallback := true }

/-! ## Orchestrator response shape (`services/agent-api/app/main.py`)

`run_pipeline_raw` returns the dict literal
`{"session_id": …, "request_id": …, "answer_text": …, "citations": …,
"addon": …}` on every path; these are its keys. -/

/-- The keys of the response dict returned by `run_pipeline_raw`
(`main.py`, the single `return` statement). -/
def runPipelineRawResponseKeys : List String :=
  ["session_id", "request_id", "answer_text", "citations", "addon"]

/-! ## Vision service (`services/mcp-travel-vision/app/vision.py`, `models.py`)

The OpenAI chat call is an oracle (`api`), and `_extract_json_from_text`
(markdown stripping plus `json.loads`) is abstracted as a function from the
model text to an optional JSON value; the parsers below consume its output
exactly as `vision.py` does.  `VisionMode` is the `Literal` type of
`models.py`, so every request carries one of the three modes.  Pydantic
validation failures raised while coercing model output are the `.error`
cases of the parsers and are recovered by `analyze_image`'s `except` into
an error-signals result. -/

/-- `VisionMode = Literal["packing", "landmark", "product_similarity"]`. -/
inductive VisionMode where
  | packing
  | landmark
  | product_similarity
deriving DecidableEq

/-- The 18-item `TRAVEL_ITEM_CATEGORIES` allow-list. -/
def TRAVEL_ITEM_CATEGORIES : List String :=
  ["light_top", "warm_top", "insulated_jacket", "rain_jacket",
   "long_pants", "shorts_or_skirt", "walking_shoes", "sandals",
   "weather_proof_shoes", "sun_protection", "cold_accessory",
   "umbrella", "day_bag", "travel_bag_organizer", "power_adapter",
   "portable_charger", "water_bottle", "travel_comfort_item"]

/-- The 11-item `SCENE_TYPES` set. -/
def SCENE_TYPES : List String :=
  ["landmark", "street", "beach", "mountain", "museum",
   "airport", "restaurant", "hotel", "transit", "urban", "nature"]

/-- `PlaceCandidate` (pydantic: `place_name` non-empty, `confidence` in
`[0,1]` when present). -/
structure PlaceCandidateM where
  place_name : String
  confidence : Option ℚ := none
  reason : Option String := none
deriving DecidableEq

/-- `VisionSignals` (floats as rationals; `attributes` values stay JSON). -/
structure VisionSignalsM where
  mode : VisionMode
  confidence : ℚ
  error : Option String := none
  detected_items : Option (List String) := none
  missing_categories : Option (List String) := none
  suitability_ok : Option Bool := none
  suitability_issue : Option String := none
  suggested_categories_for_products : Option (List String) := none
  scene_type : Option String := none
  ocr_text : Option (List String) := none
  distinctive_features : Option (List String) := none
  language_hint : Option String := none
  place_candidates : Option (List PlaceCandidateM) := none
  category : Option String := none
  attributes : Option (List (String × PVal)) := none
  style_keywords : Option (List String) := none
  search_queries : Option (List String) := none

/-- Python `str(x)` on a JSON value.  Container and float reprs are
deterministic stand-ins (they never coincide with allow-list members, which
is all the properties below consume). -/
def pyStr : PVal → String
  | .s v => v
  | .b v => if v then "True" else "False"
  | .null => "None"
  | .n q => toString q
  | .list _ => "[\x85]"
  | .obj _ => "\x7b\x85\x7d"

/-- Python `float(x)` on a decimal-literal string (the subset without
exponents, infinities or NaN; other shapes are conversion failures). -/
def parsePyFloatChars (l : List Char) : Option ℚ :=
  let l := pyStripList l
  let signAndRest : ℚ × List Char :=
    match l with
    | '+' :: r => (1, r)
    | '-' :: r => (-1, r)
    | _ => (1, l)
  let sign := signAndRest.1
  let body := signAndRest.2
  let intPart := body.takeWhile Char.isDigit
  let rest := body.dropWhile Char.isDigit
  let intVal : ℚ := (intPart.foldl (fun a c => a * 10 + (c.toNat - 48)) 0 : ℕ)
  match rest with
  | [] => if intPart.isEmpty then none else some (sign * intVal)
  | '.' :: frac =>
    if frac.all Char.isDigit && !(intPart.isEmpty && frac.isEmpty) then
      let fracVal : ℚ :=
        ((frac.foldl (fun a c => a * 10 + (c.toNat - 48)) 0 : ℕ) : ℚ) /
          ((10 : ℚ) ^ frac.length)
      some (sign * (intVal + fracVal))
    else none
  | _ => none

/-- Python `float(x)` on a JSON value (`TypeError`/`ValueError` is `none`). -/
def pyFloat : PVal → Option ℚ
  | .n q => some q
  | .b v => some (if v then 1 else 0)
  | .s v => parsePyFloatChars v.toList
  | _ => none

/-- The shared confidence coercion of the three parsers:
`conf = float(raw.get("confidence", 0.5))` clamped to `[0,1]`, with the
`except` arm yielding `0.5`. -/
def parsedConfidence (raw : List (String × PVal)) : ℚ :=
  match pget raw "confidence" with
  | none => max 0 (min 1 (1 / 2))
  | some v =>
    match pyFloat v with
    | some q => max 0 (min 1 q)
    | none => 1 / 2

/-- The list-of-filtered-categories coercion used for `detected_items`,
`missing_categories` and `suggested_categories_for_products`:
keep `str(x).strip()` for the members that land in the allow-list; a
non-list value becomes `None`. -/
def filteredCategoryList (v : Option PVal) : Option (List String) :=
  match v with
  | some (.list xs) =>
    some (xs.filterMap fun x =>
      let s := pyStrip (pyStr x)
      if s ∈ TRAVEL_ITEM_CATEGORIES then some s else none)
  | _ => none

/-- `lst or None`. -/
def orNoneList (o : Option (List String)) : Option (List String) :=
  match o with
  | some (x :: xs) => some (x :: xs)
  | _ => none

/-- `_parse_packing(raw, mode)`. -/
def parsePacking (raw : List (String × PVal)) (mode : VisionMode) : VisionSignalsM :=
  let conf := parsedConfidence raw
  let detected := filteredCategoryList (pget raw "detected_items")
  let missing := filteredCategoryList (pget raw "missing_categories")
  let suitability_ok : Option Bool :=
    match pget raw "suitability_ok" with
    | some (.b v) => some v
    | _ => none
  let suitability_issue : Option String :=
    match pget raw "suitability_issue" with
    | none => none
    | some .null => none
    | some v =>
      let s := pyStrip (pyStr v)
      if s = "" then none else some s
  let suggested := filteredCategoryList (pget raw "suggested_categories_for_products")
  { mode := mode, confidence := conf,
    detected_items := some (detected.getD []),
    missing_categories := some (missing.getD []),
    suitability_ok := suitability_ok,
    suitability_issue := suitability_issue,
    suggested_categories_for_products := orNoneList suggested }

/-- The `[str(x).strip() for x in lst if x]` coercion used for `ocr_text`,
`distinctive_features`, `style_keywords`, `search_queries`. -/
def truthyStrippedList (v : Option PVal) : Option (List String) :=
  match v with
  | some (.list xs) =>
    some (xs.filterMap fun x =>
      if pvTruthy x then some (pyStrip (pyStr x)) else none)
  | _ => none

/-- `raw.get("place_candidates") or []` followed by the `[:3]` slice and the
per-element dict test: a list yields its first three elements, a string
yields no dict elements, falsy values yield nothing, and slicing a truthy
dict or number raises (`TypeError`). -/
def candidateSlice : Option PVal → Except Unit (List PVal)
  | none => .ok []
  | some .null => .ok []
  | some (.list xs) => .ok (xs.take 3)
  | some (.s _) => .ok []
  | some (.b v) => if v then .error () else .ok []
  | some (.n q) => if q = 0 then .ok [] else .error ()
  | some (.obj l) => if l.isEmpty then .ok [] else .error ()

/-- One iteration of the place-candidate loop: a dict with a truthy
`place_name` yields a `PlaceCandidate` (whose pydantic validation may
raise); anything else contributes nothing. -/
def buildPlaceCandidate (c : PVal) : Except Unit (Option PlaceCandidateM) :=
  match c with
  | .obj fields =>
    match pget fields "place_name" with
    | some pn =>
      if pvTruthy pn then do
        let name := pyStrip (pyStr pn)
        if name = "" then throw ()
        let conf : Option ℚ ←
          match pget fields "confidence" with
          | none => pure none
          | some .null => pure none
          | some v =>
            match pyFloat v with
            | none => throw ()
            | some q => if 0 ≤ q ∧ q ≤ 1 then pure (some q) else throw ()
        let reason : Option String :=
          match pget fields "reason" with
          | some rv => if pvTruthy rv then some (pyStrip (pyStr rv)) else none
          | _ => none
        pure (some { place_name := name, confidence := conf, reason := reason })
      else pure none
    | none => pure none
  | _ => pure none

/-- The place-candidate loop of `_parse_landmark`, in list order. -/
def buildPlaceCandidates : List PVal → Except Unit (List PlaceCandidateM)
  | [] => .ok []
  | c :: rest => do
    let r ← buildPlaceCandidate c
    let others ← buildPlaceCandidates rest
    match r with
    | some pc => pure (pc :: others)
    | none => pure others

/-- The `language_hint` pass-through of `_parse_landmark`: the value lands
in a pydantic `Optional[str]` field, so a non-string non-null value raises. -/
def languageHintField : Option PVal → Except Unit (Option String)
  | none => .ok none
  | some .null => .ok none
  | some (.s v) => .ok (some v)
  | some _ => .error ()

/-- `_parse_landmark(raw, mode)`; the `.error` case is a raised exception
(pydantic validation or a bad slice/float), recovered by `analyze_image`. -/
def parseLandmark (raw : List (String × PVal)) (mode : VisionMode) :
    Except Unit VisionSignalsM := do
  let conf := parsedConfidence raw
  let scene : Option String :=
    match pget raw "scene_type" with
    | some (.s v) => if v ∈ SCENE_TYPES then some v else none
    | _ => none
  let ocr := truthyStrippedList (pget raw "ocr_text")
  let features := truthyStrippedList (pget raw "distinctive_features")
  let craw ← candidateSlice (pget raw "place_candidates")
  let place_candidates ← buildPlaceCandidates craw
  let language_hint ← languageHintField (pget raw "language_hint")
  pure { mode := mode, confidence := conf, scene_type := scene,
         ocr_text := ocr, distinctive_features := features,
         language_hint := language_hint,
         place_candidates :=
           match place_candidates with
           | [] => none
           | x :: xs => some (x :: xs) }

/-- The `category` coercion of `_parse_product_similarity`: a truthy value
is stringified, stripped and checked against the allow-list; a falsy
string stays as-is, `None` stays `None`, and any other falsy value raises
when it reaches the pydantic `Optional[str]` field. -/
def categoryField : Option PVal → Except Unit (Option String)
  | none => .ok none
  | some v =>
    if pvTruthy v then
      let s := pyStrip (pyStr v)
      .ok (if s ∈ TRAVEL_ITEM_CATEGORIES then some s else none)
    else
      match v with
      | .s u => .ok (some u)
      | .null => .ok none
      | _ => .error ()

/-- `_parse_product_similarity(raw, mode)`; the `.error` case is a raised
pydantic validation (a falsy non-string `category` reaching the
`Optional[str]` field). -/
def parseProductSimilarity (raw : List (String × PVal)) (mode : VisionMode) :
    Except Unit VisionSignalsM := do
  let conf := parsedConfidence raw
  let category ← categoryField (pget raw "category")
  let attrs : Option (List (String × PVal)) :=
    match pget raw "attributes" with
    | some (.obj l) => some l
    | _ => none
  let style_kw := truthyStrippedList (pget raw "style_keywords")
  let queries := (truthyStrippedList (pget raw "search_queries")).map (·.take 3)
  pure { mode := mode, confidence := conf, category := category,
         attributes := attrs, style_keywords := style_kw,
         search_queries := queries }

/-- `_mock_signals(mode)`: the scaffold result used when no API key is
configured. -/
def mockSignals : VisionMode → VisionSignalsM
  | .packing =>
    { mode := .packing, confidence := 9 / 10,
      detected_items := some ["light_top", "long_pants", "walking_shoes"],
      missing_categories := some ["rain_jacket"],
      suitability_ok := some false,
      suitability_issue := some "Consider adding a layer for rain.",
      suggested_categories_for_products := some ["rain_jacket", "umbrella"] }
  | .landmark =>
    { mode := .landmark, confidence := 85 / 100,
      scene_type := some "landmark",
      ocr_text := some [],
      distinctive_features := some ["famous tower"],
      place_candidates := some
        [{ place_name := "Eiffel Tower", confidence := some (9 / 10),
           reason := some "Distinctive shape" }] }
  | .product_similarity =>
    { mode := .product_similarity, confidence := 88 / 100,
      category := some "day_bag",
      attributes := some [("color", .s "black"), ("style", .s "minimal")],
      style_keywords := some ["minimal", "urban"],
      search_queries := some ["black minimal day bag", "urban travel daypack"] }

/-- An error-signals result (`confidence = 0`, requested mode echoed). -/
def errorSignals (mode : VisionMode) (msg : String) : VisionSignalsM :=
  { mode := mode, confidence := 0, error := some msg }

/-- `analyze_image(request)`.

`hasClient` is whether `_get_client()` found an API key; `api` is the chat
completion (its `.error` message is `str(e)`); `extract` is
`_extract_json_from_text` over the returned text.  A non-dict or falsy
extraction yields the parse-failure error result; an exception raised by a
mode parser is recovered into an error result (its message, `str(e)` of a
pydantic error, is abstracted as a fixed string). -/
def analyzeImage (mode : VisionMode) (hasClient : Bool)
    (api : Except String String) (extract : String → Option PVal) :
    VisionSignalsM :=
  if !hasClient then mockSignals mode
  else
    match api with
    | .error e => errorSignals mode e
    | .ok text =>
      match extract text with
      | none => errorSignals mode "Failed to parse model JSON"
      | some parsed =>
        match parsed with
        | .obj [] => errorSignals mode "Failed to parse model JSON"
        | .obj fields =>
          match mode with
          | .packing => parsePacking fields mode
          | .landmark =>
            match parseLandmark fields mode with
            | .ok s => s
            | .error _ => errorSignals mode "validation error"
          | .product_similarity =>
            match parseProductSimilarity fields mode with
            | .ok s => s
            | .error _ => errorSignals mode "validation error"
        | _ => errorSignals mode "Failed to parse model JSON"

/-! ## Knowledge-graph merging (`services/ingestion/app/sources/graph.py`)

`merge_graph` consumes per-chunk extractions.  Node/edge `properties` carry
arbitrary JSON values (`dict[str, Any]`); the value type is a parameter
`α`.  The `node_map` dict is an association list in insertion order; the
output lists nodes by sorted key exactly as the source does. -/

/-- `GraphNode`. -/
structure GNode (α : Type) where
  id : String
  type : String
  name : String
  aliases : List String
  properties : List (String × α)
deriving DecidableEq

/-- `Evidence` for an edge. -/
structure GEvidence where
  videoUrl : String
  startSec : Int
  endSec : Int
  chunkIdx : Int
  timestampUrl : String
deriving DecidableEq

/-- `GraphEdge`. -/
structure GEdge (α : Type) where
  source : String
  type : String
  target : String
  properties : List (String × α)
  evidence : GEvidence
deriving DecidableEq

/-- `GraphExtraction`: nodes and edges extracted from one chunk. -/
structure GraphExtractionM (α : Type) where
  nodes : List (GNode α)
  edges : List (GEdge α)
deriving DecidableEq

/-- The merged-graph value returned by `merge_graph` (with the `debug`
counters). -/
structure MergedGraph (α : Type) where
  nodes : List (GNode α)
  edges : List (GEdge α)
  node_count : Nat
  edge_count : Nat
deriving DecidableEq

/-- `sorted(l)` for strings: `mergeSort` by `≤`. -/
def sortStrings (l : List String) : List String :=
  l.mergeSort fun a b => decide (a ≤ b)

/-- `sorted(set(l))`: the sorted duplicate-free enumeration of the elements
of `l`. -/
def sortedDedup (l : List String) : List String :=
  sortStrings l.dedup

/-- The duplicate-node branch of the merge loop: `aliases` become the
sorted union, and each property key not yet present is added with its
incoming value (Python mutates `existing` in place; the id, name and type
of the first occurrence persist). -/
def mergeNodeInto {α : Type} (existing n : GNode α) : GNode α :=
  { existing with
    aliases := sortedDedup (existing.aliases ++ n.aliases),
    properties :=
      n.properties.foldl
        (fun acc kv => if (alookup acc kv.1).isSome then acc else acc ++ [kv])
        existing.properties }

/-- One iteration of the node loop of `merge_graph`. -/
def insertNode {α : Type} (m : List (String × GNode α)) (n : GNode α) :
    List (String × GNode α) :=
  match alookup m n.id with
  | none => m ++ [(n.id, n)]
  | some existing => aupdate m n.id (mergeNodeInto existing n)

/-- `(type, source, target, evidence.startSec, evidence.endSec)`. -/
def edgeKey {α : Type} (e : GEdge α) : String × String × String × Int × Int :=
  (e.type, e.source, e.target, e.evidence.startSec, e.evidence.endSec)

/-- One iteration of the edge loop of `merge_graph`: skip an edge whose key
is already in `edge_keys`, otherwise record the key and append the edge. -/
def dedupeEdgeStep {α : Type}
    (st : List (String × String × String × Int × Int) × List (GEdge α))
    (e : GEdge α) : List (String × String × String × Int × Int) × List (GEdge α) :=
  if edgeKey e ∈ st.1 then st else (st.1 ++ [edgeKey e], st.2 ++ [e])

/-- `merge_graph(extractions)`. -/
def mergeGraph {α : Type} [DecidableEq α] (extractions : List (GraphExtractionM α)) :
    MergedGraph α :=
  let nodeMap :=
    extractions.foldl (fun m ex => ex.nodes.foldl insertNode m) []
  let edgeState :=
    extractions.foldl (fun st ex => ex.edges.foldl dedupeEdgeStep st) ([], [])
  { nodes := (sortStrings (nodeMap.map Prod.fst)).filterMap
      fun k => alookup nodeMap k,
    edges := edgeState.2,
    node_count := nodeMap.length,
    edge_count := edgeState.2.length }

/-- The specification relation between a merged node and the (ordered) list
of its occurrences in the input: first-seen `name`/`type`, aliases kept
as-is for a single occurrence and the sorted deduplicated union otherwise,
and per-key first-seen property values. -/
def NodeMergeSpec {α : Type} (occs : List (GNode α)) (nd : GNode α) : Prop :=
  ∃ h t, occs = h :: t ∧ nd.id = h.id ∧ nd.name = h.name ∧ nd.type = h.type ∧
    (t = [] → nd.aliases = h.aliases) ∧
    (t ≠ [] → nd.aliases = sortedDedup ((h :: t).flatMap GNode.aliases)) ∧
    ∀ k, alookup nd.properties k = alookup ((h :: t).flatMap GNode.properties) k

/-- Two chunk extractions that both mention the node id `"poi:x"` but with
different names; as inputs to `merge_graph` in either order they form the
same multiset. -/
def exA7 : GraphExtractionM String :=
  { nodes := [{ id := "poi:x", type := "poi", name := "X1",
                aliases := [], properties := [] }],
    edges := [] }

/-- The second extraction, naming `"poi:x"` as `"X2"`. -/
def exB7 : GraphExtractionM String :=
  { nodes := [{ id := "poi:x", type := "poi", name := "X2",
                aliases := [], properties := [] }],
    edges := [] }

/-! ## Theorems -/

/-- An addon that is the empty dict yields no inferred bucket (its combined
keyword text is three spaces). -/
theorem inferAddonBucket_of_emptyDict (a : AddonD) (h : a.isEmptyDict = true) :
    inferAddonBucket a = none := by
  obtain ⟨p, s, pc, m, l, c⟩ := a
  simp only [AddonD.isEmptyDict, Bool.and_eq_true, Option.isNone_iff_eq_none] at h
  obtain ⟨⟨⟨⟨⟨hp, hs⟩, hpc⟩, hm⟩, hl⟩, hc⟩ := h
  subst hp hs hpc hm hl hc
  decide

/-- C9 (counterexample): the idempotency key joins `content_source_id` and
`stage` with a colon, not with the claimed `"|"` separator — shown at the
input `("youtube:v1", "transcript")`. -/
theorem idempotency_key_pipe_counterexample :
    buildIdempotencyKey "youtube:v1" "transcript" ≠
      "youtube:v1" ++ "|" ++ "transcript" := by
  decide

/-- C9 (amended): for every `content_source_id` and `stage`, the idempotency
key under which processing is checked and marked is exactly
`content_source_id` followed by the character `":"` followed by `stage`. -/
theorem idempotency_key_format (content_source_id stage : String) :
    buildIdempotencyKey content_source_id stage =
      content_source_id ++ ":" ++ stage :=
  rfl

/-- C10: a response whose addon matches no bucket keyword at all keeps its
addon unchanged through the guardrail pass, whatever the user query. -/
theorem addon_without_bucket_kept (resp : AgentResponse) (q : String)
    (a : AddonD) (h1 : resp.addon = some a)
    (h2 : inferAddonBucket a = none) :
    (validateAndFix resp q).addon = resp.addon := by
  simp only [validateAndFix, h1, h2]
  split <;> split_ifs <;> simp [h1]

/-- C10 (witness): a concrete addon with no bucket keyword survives a
non-commercial query untouched. -/
theorem addon_without_bucket_kept_witness :
    (validateAndFix
        { session_id := "s1", request_id := "r1",
          answer_text := "Great view.",
          citations := ["https://example.com/a"],
          addon := some { product_id := some "p12345678",
                          summary := some "banana" } }
        "dicas da disney").addon =
      some { product_id := some "p12345678", summary := some "banana" } :=
  addon_without_bucket_kept _ "dicas da disney"
    { product_id := some "p12345678", summary := some "banana" } rfl (by decide)

/-- C1: with no citations and any factual-pattern match the post-guardrail
answer is the safe fallback with citations still empty; a non-null addon
whose inferred bucket the user query does not mention is dropped. -/
theorem guardrail_law (resp : AgentResponse) (q : String) :
    ((resp.citations = [] ∧
        (hasCurrency resp.answer_text = true ∨
          looksFactual resp.answer_text = true ∨
          strContains resp.answer_text "(Source:" = true)) →
      (validateAndFix resp q).answer_text = SAFE_FALLBACK ∧
        (validateAndFix resp q).citations = []) ∧
    (∀ a b, resp.addon = some a → inferAddonBucket a = some b →
      userRequestedBucket q b = false →
      (validateAndFix resp q).addon = none) := by
  constructor
  · rintro ⟨hcit, hpat⟩
    have hfix :
        (if !(resp.citations.length > 0 : Bool) then
          if hasCurrency resp.answer_text then
            { resp with answer_text := SAFE_FALLBACK, citations := [] }
          else if looksFactual resp.answer_text ||
              strContains resp.answer_text "(Source:" then
            { resp with answer_text := SAFE_FALLBACK, citations := [] }
          else resp
         else resp) =
        { resp with answer_text := SAFE_FALLBACK, citations := [] } := by
      rw [hcit]
      rcases hpat with h | h | h <;>
        rcases hc : hasCurrency resp.answer_text <;>
        simp_all
    simp only [validateAndFix, hfix]
    refine ⟨?_, ?_⟩ <;> (repeat' split) <;> simp
  · intro a b ha hb hreq
    have hne : a.isEmptyDict = false := by
      rcases h' : a.isEmptyDict
      · rfl
      · exact absurd (inferAddonBucket_of_emptyDict a h') (by simp [hb])
    simp only [validateAndFix, ha, hb, hne, hreq]
    split <;> simp_all

/-- C1 (witness): the unsourced modal answer from the guardrail test is
rewritten to the safe fallback with empty citations, and its hotel addon —
not requested by the query — is dropped. -/
theorem guardrail_law_witness :
    (validateAndFix
        { session_id := "s1", request_id := "r1",
          answer_text := "You must visit at 8am. The rule requires advance booking.",
          citations := [],
          addon := some { product_id := some "prod_hotel_123",
                          summary := some "Best hotel deals in Orlando",
                          link := some "https://hotels.com",
                          merchant := some "Hotels.com" } }
        "when to go to Disney").answer_text = SAFE_FALLBACK ∧
    (validateAndFix
        { session_id := "s1", request_id := "r1",
          answer_text := "You must visit at 8am. The rule requires advance booking.",
          citations := [],
          addon := some { product_id := some "prod_hotel_123",
                          summary := some "Best hotel deals in Orlando",
                          link := some "https://hotels.com",
                          merchant := some "Hotels.com" } }
        "when to go to Disney").citations = [] ∧
    (validateAndFix
        { session_id := "s1", request_id := "r1",
          answer_text := "You must visit at 8am. The rule requires advance booking.",
          citations := [],
          addon := some { product_id := some "prod_hotel_123",
                          summary := some "Best hotel deals in Orlando",
                          link := some "https://hotels.com",
                          merchant := some "Hotels.com" } }
        "when to go to Disney").addon = none := by
  refine ⟨?_, ?_, ?_⟩
  · exact ((guardrail_law _ "when to go to Disney").1
      ⟨rfl, Or.inr (Or.inl (by decide))⟩).1
  · exact ((guardrail_law _ "when to go to Disney").1
      ⟨rfl, Or.inr (Or.inl (by decide))⟩).2
  · exact (guardrail_law _ "when to go to Disney").2 _ "hotel" rfl (by decide)
      (by decide)

/-- The failure chain only touches `retry_count` and `error`. -/
theorem failureChain_fields (e : IngestEvent) (msg : String) (k : Nat) :
    (failureChain e msg k).retry_count = e.retry_count + k ∧
    (failureChain e msg k).event_id = e.event_id ∧
    (failureChain e msg k).max_retries = e.max_retries ∧
    (failureChain e msg k).content_source_id = e.content_source_id := by
  induction k with
  | zero => simp [failureChain]
  | succ k ih =>
    simp only [failureChain, bumpFailure]
    exact ⟨by rw [ih.1, Nat.add_assoc], ih.2.1, ih.2.2.1, ih.2.2.2⟩

/-- C4: a failing event is re-enqueued exactly while the incremented
`retry_count` stays below `max_retries`; after `N = max_retries` failures it
sits in the DLQ with `retry_count = N` and its original `event_id`; and
replay drains the whole DLQ to the input queue in FIFO order, returning the
number moved. -/
theorem retry_dlq_bound (e : IngestEvent) (msg : String) (q : QueueState)
    (N : Nat) (h0 : e.retry_count = 0) (hN : e.max_retries = N) (h1 : 1 ≤ N) :
    (∀ e' : IngestEvent, handleFailure e' msg q =
      if e'.retry_count + 1 < e'.max_retries then
        { q with requeue := q.requeue ++ [bumpFailure msg e'] }
      else { q with dlq := q.dlq ++ [bumpFailure msg e'] }) ∧
    (∀ k, k + 1 < N →
      handleFailure (failureChain e msg k) msg q =
        { q with requeue := q.requeue ++ [failureChain e msg (k + 1)] }) ∧
    handleFailure (failureChain e msg (N - 1)) msg q =
      { q with dlq := q.dlq ++ [failureChain e msg N] } ∧
    (failureChain e msg N).retry_count = N ∧
    (failureChain e msg N).event_id = e.event_id ∧
    (failureChain e msg N).max_retries = N ∧
    ∀ q' : QueueState, replayDlqToRequeue q' =
      ({ requeue := q'.requeue ++ q'.dlq, dlq := [] }, q'.dlq.length) := by
  obtain ⟨hrc, hid, hmax, hcs⟩ := failureChain_fields e msg N
  refine ⟨?_, ?_, ?_, ?_, hid, ?_, fun q' => rfl⟩
  · intro e'
    simp only [handleFailure, bumpFailure]
  · intro k hk
    obtain ⟨hrck, _, hmaxk, _⟩ := failureChain_fields e msg k
    have hcond : (failureChain e msg k).retry_count + 1 <
        (failureChain e msg k).max_retries := by
      rw [hrck, hmaxk, h0, hN]; omega
    simp only [handleFailure, if_pos hcond]
    exact rfl
  · obtain ⟨hrck, _, hmaxk, _⟩ := failureChain_fields e msg (N - 1)
    have hcond : ¬((failureChain e msg (N - 1)).retry_count + 1 <
        (failureChain e msg (N - 1)).max_retries) := by
      rw [hrck, hmaxk, h0, hN]; omega
    have hchain : bumpFailure msg (failureChain e msg (N - 1)) =
        failureChain e msg N := by
      have : N - 1 + 1 = N := by omega
      calc bumpFailure msg (failureChain e msg (N - 1)) =
          failureChain e msg (N - 1 + 1) := rfl
        _ = failureChain e msg N := by rw [this]
    simp only [handleFailure, if_neg hcond]
    show ({ requeue := q.requeue,
            dlq := q.dlq ++ [bumpFailure msg (failureChain e msg (N - 1))] } :
        QueueState) = _
    rw [hchain]
  · rw [hrc, h0]; omega
  · rw [hmax, hN]

/-- C4 (witness): a concrete event with `max_retries = 3` whose first two
failures requeued lands in the DLQ on its third failure with
`retry_count = 3` and the original `event_id`. -/
theorem retry_dlq_bound_witness :
    handleFailure
        (failureChain
          { event_id := "ev-1", content_source_id := "youtube:v1",
            stage := "requested", payload := [], retry_count := 0,
            max_retries := 3, error := none } "fetch failed" 2)
        "fetch failed" { requeue := [], dlq := [] } =
      { requeue := [],
        dlq := [failureChain
          { event_id := "ev-1", content_source_id := "youtube:v1",
            stage := "requested", payload := [], retry_count := 0,
            max_retries := 3, error := none } "fetch failed" 3] } ∧
    (failureChain
        { event_id := "ev-1", content_source_id := "youtube:v1",
          stage := "requested", payload := [], retry_count := 0,
          max_retries := 3, error := none } "fetch failed" 3).retry_count = 3 ∧
    (failureChain
        { event_id := "ev-1", content_source_id := "youtube:v1",
          stage := "requested", payload := [], retry_count := 0,
          max_retries := 3, error := none } "fetch failed" 3).event_id =
      "ev-1" := by
  obtain ⟨-, -, hdlq, hrc, hid, -, -⟩ :=
    retry_dlq_bound
      { event_id := "ev-1", content_source_id := "youtube:v1",
        stage := "requested", payload := [], retry_count := 0,
        max_retries := 3, error := none }
      "fetch failed" { requeue := [], dlq := [] } 3 rfl rfl (by decide)
  exact ⟨hdlq, hrc, hid⟩

/-- C5 (counterexample): the orchestrator's assembled response carries no
`x_contract_version` key at all — the claimed invariant fails for every
orchestrator response. -/
theorem version_echo_counterexample :
    ¬ ("x_contract_version" ∈ runPipelineRawResponseKeys) := by
  decide

/-- C5 (amended): every response of the modelled retrieval services carries
`x_contract_version = "1.0"` on every path (cache hits and backend-failure
fallbacks included, whatever version the caller sent), while the
orchestrator's response dict has no `x_contract_version` key. -/
theorem version_echo_amended :
    (∀ (backend : String → Nat → List ProductCandidateM × Bool) (ttl : ℤ)
        (store : ProductStore) (now : ℤ) (req : ProductRequestM),
      (retrieveProductCandidates backend ttl store now req).resp.x_contract_version =
        "1.0") ∧
    (∀ (ε : Type) (backend : String → Except Unit (List ε)) (ttl : ℤ)
        (store : EvidenceStore ε) (now : ℤ) (req : EvidenceRequestM),
      (retrieveTravelEvidence backend ttl store now req).resp.x_contract_version =
        "1.0") ∧
    "x_contract_version" ∉ runPipelineRawResponseKeys := by
  refine ⟨?_, ?_, by decide⟩
  · intro backend ttl store now req
    cases hm : (cacheGet store
        (buildProductCacheKey req.query_signature req.market req.destination
          req.lang) now).1 with
    | none => simp [retrieveProductCandidates, hm]
    | some raw => simp [retrieveProductCandidates, hm]
  · intro ε backend ttl store now req
    cases hm : (evidenceCacheGet store
        (buildEvidenceCacheKey req.user_query req.destination req.lang
          (strategyParamsVersion req)) now).1 with
    | none =>
      cases hb : backend req.user_query with
      | ok items => simp [retrieveTravelEvidence, hm, hb]
      | error u => simp [retrieveTravelEvidence, hm, hb]
    | some cached => simp [retrieveTravelEvidence, hm]

/-- C5 (witness): the products service on an empty cache with an
empty-result backend still stamps version `"1.0"`. -/
theorem version_echo_amended_witness :
    (retrieveProductCandidates (fun _ _ => ([], false)) 300 [] 0
        { query_signature := "q" }).resp.x_contract_version = "1.0" :=
  version_echo_amended.1 _ _ _ _ _

/-- C8 (counterexample): on a backend failure (no Weaviate client) the
products service records a fallback and nevertheless installs the stub
fallback into the TTL cache — a failed backend call does install a cached
entry. -/
theorem no_negative_caching_counterexample :
    (retrieveProductCandidates (productsBackend none) 300 [] 0
        { query_signature := "hotel tour" }).weaviateFallback = true ∧
    cachePeek
        (retrieveProductCandidates (productsBackend none) 300 [] 0
          { query_signature := "hotel tour" }).store
        (buildProductCacheKey "hotel tour" none none none) 0 =
      some stubCandidates := by
  constructor
  · rfl
  · rfl

/-- C8 (amended): the knowledge service never caches a backend-failure
fallback (its store is untouched beyond lazy eviction), whereas the
products service caches the raw pre-filter backend-helper result on every
miss — including the stub fallback produced on backend failure. -/
theorem no_negative_caching_amended :
    (∀ (ε : Type) (backend : String → Except Unit (List ε)) (ttl : ℤ)
        (store : EvidenceStore ε) (now : ℤ) (req : EvidenceRequestM),
      (retrieveTravelEvidence backend ttl store now req).weaviateFallback = true →
      (retrieveTravelEvidence backend ttl store now req).store =
        (evidenceCacheGet store
          (buildEvidenceCacheKey req.user_query req.destination req.lang
            (strategyParamsVersion req)) now).2) ∧
    (∀ (backend : String → Nat → List ProductCandidateM × Bool) (ttl : ℤ)
        (store : ProductStore) (now : ℤ) (req : ProductRequestM),
      (retrieveProductCandidates backend ttl store now req).backendCalled = true →
      (retrieveProductCandidates backend ttl store now req).store =
        cacheSet
          (cacheGet store
            (buildProductCacheKey req.query_signature req.market
              req.destination req.lang) now).2
          (buildProductCacheKey req.query_signature req.market
            req.destination req.lang)
          (backend req.query_signature
            (match req.limit with
             | none => 10
             | some l => if l = 0 then 10 else l)).1 now ttl) := by
  constructor
  · intro ε backend ttl store now req
    cases hm : (evidenceCacheGet store
        (buildEvidenceCacheKey req.user_query req.destination req.lang
          (strategyParamsVersion req)) now).1 with
    | none =>
      cases hb : backend req.user_query with
      | ok items => simp [retrieveTravelEvidence, hm, hb]
      | error u => simp [retrieveTravelEvidence, hm, hb]
    | some cached => simp [retrieveTravelEvidence, hm]
  · intro backend ttl store now req
    cases hm : (cacheGet store
        (buildProductCacheKey req.query_signature req.market req.destination
          req.lang) now).1 with
    | none => intro _; simp [retrieveProductCandidates, hm]
    | some raw => simp [retrieveProductCandidates, hm]

/-- C8 (witness): the knowledge service with a failing backend on an empty
store caches nothing. -/
theorem no_negative_caching_amended_witness :
    (retrieveTravelEvidence (fun _ => (.error () : Except Unit (List Unit)))
        300 [] 0 { user_query := "disney tips" }).store = ([] : EvidenceStore Unit) :=
  no_negative_caching_amended.1 Unit (fun _ => .error ()) 300 [] 0
    { user_query := "disney tips" } rfl

/-- A `handle_fetch` delivery whose idempotency key is already marked does
nothing: no advance, no mark, no external work. -/
theorem handleFetch_processed (ev : IngestEvent)
    (f : Except Unit (PVal × PVal × PVal)) (id : String) (st : List String)
    (h : buildIdempotencyKey ev.content_source_id "transcript" ∈ st) :
    handleFetch ev f id st = (none, st) := by
  unfold handleFetch
  split
  · rfl
  · simp [alreadyProcessed, h]

/-- Every `handle_fetch` delivery either does not advance and leaves the
store unchanged, or advances and marks exactly its idempotency key. -/
theorem handleFetch_cases (ev : IngestEvent)
    (f : Except Unit (PVal × PVal × PVal)) (id : String) (st : List String) :
    handleFetch ev f id st = (none, st) ∨
      ∃ e', handleFetch ev f id st =
        (some e', buildIdempotencyKey ev.content_source_id "transcript" :: st) := by
  simp only [handleFetch]
  repeat' split
  all_goals first
    | exact Or.inl rfl
    | exact Or.inr ⟨_, rfl⟩

/-- A `handle_write` delivery whose idempotency key is already marked does
nothing. -/
theorem handleWrite_processed (ev : IngestEvent) (w : Except Unit Unit)
    (st : List String)
    (h : buildIdempotencyKey ev.content_source_id "write" ∈ st) :
    handleWrite ev w st = (st, 0) := by
  unfold handleWrite
  simp [alreadyProcessed, h]

/-- Every `handle_write` delivery either performs no write and leaves the
store unchanged, or performs one write and marks its idempotency key. -/
theorem handleWrite_cases (ev : IngestEvent) (w : Except Unit Unit)
    (st : List String) :
    handleWrite ev w st = (st, 0) ∨
      handleWrite ev w st =
        (buildIdempotencyKey ev.content_source_id "write" :: st, 1) := by
  simp only [handleWrite]
  repeat' split
  all_goals first
    | exact Or.inl rfl
    | exact Or.inr rfl

/-- Duplicate `handle_fetch` deliveries after the key is marked all return
no-advance and leave the store untouched. -/
theorem runFetchTrace_processed (ev : IngestEvent)
    (f : Except Unit (PVal × PVal × PVal)) (ids : Nat → String)
    (st : List String)
    (h : buildIdempotencyKey ev.content_source_id "transcript" ∈ st) :
    ∀ n, runFetchTrace ev f ids st n = (0, st) := by
  intro n
  induction n with
  | zero => rfl
  | succ n ih =>
    simp [runFetchTrace, handleFetch_processed ev f (ids n) st h, ih]

/-- Across any number of duplicate `handle_fetch` deliveries, at most one
advances. -/
theorem runFetchTrace_le_one (ev : IngestEvent)
    (f : Except Unit (PVal × PVal × PVal)) (ids : Nat → String) :
    ∀ (n : Nat) (st : List String), (runFetchTrace ev f ids st n).1 ≤ 1 := by
  intro n
  induction n with
  | zero => intro st; simp [runFetchTrace]
  | succ n ih =>
    intro st
    rcases handleFetch_cases ev f (ids n) st with hc | ⟨e', hc⟩
    · simpa [runFetchTrace, hc] using ih st
    · have hmem : buildIdempotencyKey ev.content_source_id "transcript" ∈
          buildIdempotencyKey ev.content_source_id "transcript" :: st :=
        List.mem_cons_self _ _
      simp [runFetchTrace, hc, runFetchTrace_processed ev f ids _ hmem n]

/-- Duplicate `handle_write` deliveries after the key is marked perform no
write and leave the store untouched. -/
theorem runWriteTrace_processed (ev : IngestEvent) (w : Except Unit Unit)
    (st : List String)
    (h : buildIdempotencyKey ev.content_source_id "write" ∈ st) :
    ∀ n, runWriteTrace ev w st n = (0, st) := by
  intro n
  induction n with
  | zero => rfl
  | succ n ih =>
    simp [runWriteTrace, handleWrite_processed ev w st h, ih]

/-- Across any number of duplicate `handle_write` deliveries, at most one
side-effecting write is performed. -/
theorem runWriteTrace_le_one (ev : IngestEvent) (w : Except Unit Unit) :
    ∀ (n : Nat) (st : List String), (runWriteTrace ev w st n).1 ≤ 1 := by
  intro n
  induction n with
  | zero => intro st; simp [runWriteTrace]
  | succ n ih =>
    intro st
    rcases handleWrite_cases ev w st with hc | hc
    · simpa [runWriteTrace, hc] using ih st
    · have hmem : buildIdempotencyKey ev.content_source_id "write" ∈
          buildIdempotencyKey ev.content_source_id "write" :: st :=
        List.mem_cons_self _ _
      simp [runWriteTrace, hc, runWriteTrace_processed ev w _ hmem n]

/-- C2: under sequential duplicate delivery of the same event, at most one
`handle_fetch` call advances to the next stage and at most one
side-effecting write is performed by `handle_write`; once the
`(content_source_id, stage)` key is marked processed, every later delivery
returns no-advance (respectively performs no write) without touching the
store. -/
theorem ingestion_idempotency (ev : IngestEvent)
    (f : Except Unit (PVal × PVal × PVal)) (ids : Nat → String)
    (w : Except Unit Unit) (st : List String) (n : Nat) :
    (runFetchTrace ev f ids st n).1 ≤ 1 ∧
    (buildIdempotencyKey ev.content_source_id "transcript" ∈ st →
      runFetchTrace ev f ids st n = (0, st)) ∧
    (runWriteTrace ev w st n).1 ≤ 1 ∧
    (buildIdempotencyKey ev.content_source_id "write" ∈ st →
      runWriteTrace ev w st n = (0, st)) :=
  ⟨runFetchTrace_le_one ev f ids n st,
   fun h => runFetchTrace_processed ev f ids st h n,
   runWriteTrace_le_one ev w n st,
   fun h => runWriteTrace_processed ev w st h n⟩

/-- C2 (witness): once `"youtube:v1:transcript"` is marked, three more
deliveries of the event to `handle_fetch` advance nothing; and five
duplicate deliveries to `handle_write` from an empty store perform at most
one write. -/
theorem ingestion_idempotency_witness :
    runFetchTrace
        { event_id := "e1", content_source_id := "youtube:v1",
          stage := "requested", payload := [], retry_count := 0,
          max_retries := 3, error := none }
        (.ok (.null, .null, .null)) (fun _ => "uuid") ["youtube:v1:transcript"]
        3 = (0, ["youtube:v1:transcript"]) ∧
    (runWriteTrace
        { event_id := "e1", content_source_id := "youtube:v1",
          stage := "write_complete", payload := [], retry_count := 0,
          max_retries := 3, error := none }
        (.ok ()) [] 5).1 ≤ 1 := by
  refine ⟨?_, ?_⟩
  · exact (ingestion_idempotency _ _ _ (.ok ()) _ 3).2.1 (by decide)
  · exact (ingestion_idempotency _ (.ok (.null, .null, .null)) (fun _ => "uuid")
      _ _ 5).2.2.1

/-- Updating an existing key rebinds it. -/
theorem alookup_aupdate_self {β : Type _} :
    ∀ (m : List (String × β)) (k : String) (v : β),
      (alookup m k).isSome → alookup (aupdate m k v) k = some v := by
  intro m
  induction m with
  | nil => intro k v h; simp [alookup] at h
  | cons kv rest ih =>
    intro k v h
    by_cases hk : kv.1 = k
    · simp [aupdate, alookup, hk]
    · simp only [alookup, aupdate, if_neg hk] at *
      exact ih k v h

/-- A key absent from the first list looks through an append. -/
theorem alookup_append_of_none {β : Type _} :
    ∀ (m m2 : List (String × β)) (k : String),
      alookup m k = none → alookup (m ++ m2) k = alookup m2 k := by
  intro m
  induction m with
  | nil => intro m2 k _; rfl
  | cons kv rest ih =>
    intro m2 k h
    by_cases hk : kv.1 = k
    · simp [alookup, hk] at h
    · simp only [alookup, List.cons_append, if_neg hk] at *
      exact ih m2 k h

/-- Python dict assignment binds the key to the new value. -/
theorem alookup_dictSet_self {β : Type _} (m : List (String × β)) (k : String)
    (v : β) : alookup (dictSet m k v) k = some v := by
  unfold dictSet
  rcases h : alookup m k with _ | w
  · simp only [h, Option.isSome_none, Bool.false_eq_true, if_false]
    rw [alookup_append_of_none m _ k h]
    simp [alookup]
  · simp only [h, Option.isSome_some, if_true]
    exact alookup_aupdate_self m k v (by simp [h])


/-- A live `cache.get` hit leaves the store unchanged and exposes the
stored entry. -/
theorem cacheGet_some_spec (st0 : ProductStore) (key : String) (now : ℤ)
    (w : List ProductCandidateM) (h : (cacheGet st0 key now).1 = some w) :
    (cacheGet st0 key now).2 = st0 ∧
      ∃ E, alookup st0 key = some (w, E) ∧ ¬(now ≥ E) := by
  rcases halk : alookup st0 key with _ | ⟨w', E⟩
  · simp [cacheGet, halk] at h
  · by_cases hc : now ≥ E
    · simp [cacheGet, halk, hc] at h
    · have heq : cacheGet st0 key now = (some w', st0) := by
        simp [cacheGet, halk, hc]
      rw [heq] at h
      obtain rfl : w' = w := by simpa using h
      exact ⟨by rw [heq], E, by simp [halk], hc⟩

/-- C3: within a TTL window, two product requests whose key tuples
normalize to the same key share the same underlying cached raw candidate
set and the second does not re-query the backend, even when their
`min_confidence` values differ; `min_confidence` is applied as a
deterministic post-filter to the cached value, and a cache-filling request
stores the pre-filter raw backend result. -/
theorem product_cache_determinism
    (backend : String → Nat → List ProductCandidateM × Bool) (ttl : ℤ)
    (store : ProductStore) (now t1 : ℤ) (r1 r2 : ProductRequestM)
    (v : List ProductCandidateM)
    (hkey : buildProductCacheKey r1.query_signature r1.market r1.destination
        r1.lang =
      buildProductCacheKey r2.query_signature r2.market r2.destination r2.lang)
    (hlive : cachePeek (retrieveProductCandidates backend ttl store now r1).store
        (buildProductCacheKey r1.query_signature r1.market r1.destination
          r1.lang) t1 =
      some v) :
    (retrieveProductCandidates backend ttl
        (retrieveProductCandidates backend ttl store now r1).store t1
        r2).backendCalled = false ∧
    (retrieveProductCandidates backend ttl
        (retrieveProductCandidates backend ttl store now r1).store t1
        r2).cacheHit = true ∧
    (retrieveProductCandidates backend ttl
        (retrieveProductCandidates backend ttl store now r1).store t1
        r2).store =
      (retrieveProductCandidates backend ttl store now r1).store ∧
    (retrieveProductCandidates backend ttl
        (retrieveProductCandidates backend ttl store now r1).store t1
        r2).resp.candidates = filterByMinConfidence v r2.min_confidence ∧
    (retrieveProductCandidates backend ttl store now r1).resp.candidates =
      filterByMinConfidence v r1.min_confidence ∧
    ((retrieveProductCandidates backend ttl store now r1).backendCalled = true →
      v = (backend r1.query_signature
        (match r1.limit with
         | none => 10
         | some l => if l = 0 then 10 else l)).1) := by
  set key := buildProductCacheKey r1.query_signature r1.market r1.destination
    r1.lang with hkeydef
  rcases hfirst : (cacheGet store key now).1 with _ | w
  · -- first request misses and fills the cache with the raw backend result
    set st1 := (cacheGet store key now).2 with hst1
    have ho1 : retrieveProductCandidates backend ttl store now r1 =
        { resp := { x_contract_version := "1.0", request := r1,
                    candidates := filterByMinConfidence
                      (backend r1.query_signature
                        (match r1.limit with
                         | none => 10
                         | some l => if l = 0 then 10 else l)).1
                      r1.min_confidence },
          store := cacheSet st1 key
            (backend r1.query_signature
              (match r1.limit with
               | none => 10
               | some l => if l = 0 then 10 else l)).1 now ttl,
          backendCalled := true, cacheHit := false,
          weaviateFallback := (backend r1.query_signature
            (match r1.limit with
             | none => 10
             | some l => if l = 0 then 10 else l)).2 } := by
      simp [retrieveProductCandidates, hfirst, ← hkeydef, ← hst1]
    rw [ho1] at hlive ⊢
    dsimp only at hlive ⊢
    have halk2 : alookup (cacheSet st1 key
        (backend r1.query_signature
          (match r1.limit with
           | none => 10
           | some l => if l = 0 then 10 else l)).1 now ttl) key =
        some ((backend r1.query_signature
          (match r1.limit with
           | none => 10
           | some l => if l = 0 then 10 else l)).1, now + ttl) := by
      unfold cacheSet
      exact alookup_dictSet_self _ _ _
    simp only [cachePeek, halk2] at hlive
    by_cases ht1 : t1 ≥ now + ttl
    · rw [if_pos ht1] at hlive; exact absurd hlive (by simp)
    · rw [if_neg ht1] at hlive
      have hv : (backend r1.query_signature
          (match r1.limit with
           | none => 10
           | some l => if l = 0 then 10 else l)).1 = v := by
        simpa using hlive
      rw [hv] at halk2 ⊢
      have hget2 : cacheGet (cacheSet st1 key v now ttl) key t1 =
          (some v, cacheSet st1 key v now ttl) := by
        simp [cacheGet, halk2, ht1]
      have ho2 : retrieveProductCandidates backend ttl
          (cacheSet st1 key v now ttl) t1 r2 =
          { resp := { x_contract_version := "1.0", request := r2,
                      candidates := filterByMinConfidence v r2.min_confidence },
            store := cacheSet st1 key v now ttl,
            backendCalled := false, cacheHit := true,
            weaviateFallback := false } := by
        simp [retrieveProductCandidates, ← hkey, hget2]
      rw [ho2]
      exact ⟨rfl, rfl, rfl, rfl, rfl, fun _ => rfl⟩
  · -- first request hits an existing live entry
    obtain ⟨hst, E, halk, hnow⟩ := cacheGet_some_spec store key now w hfirst
    have ho1 : retrieveProductCandidates backend ttl store now r1 =
        { resp := { x_contract_version := "1.0", request := r1,
                    candidates := filterByMinConfidence w r1.min_confidence },
          store := store, backendCalled := false,
          cacheHit := true, weaviateFallback := false } := by
      simp [retrieveProductCandidates, hfirst, ← hkeydef, hst]
    rw [ho1] at hlive ⊢
    dsimp only at hlive ⊢
    simp only [cachePeek, halk] at hlive
    by_cases ht1 : t1 ≥ E
    · rw [if_pos ht1] at hlive; exact absurd hlive (by simp)
    · rw [if_neg ht1] at hlive
      have hv : w = v := by simpa using hlive
      have hget2 : cacheGet store key t1 = (some v, store) := by
        simp [cacheGet, halk, ht1, hv]
      have ho2 : retrieveProductCandidates backend ttl store t1 r2 =
          { resp := { x_contract_version := "1.0", request := r2,
                      candidates := filterByMinConfidence v r2.min_confidence },
            store := store, backendCalled := false, cacheHit := true,
            weaviateFallback := false } := by
        simp [retrieveProductCandidates, ← hkey, hget2]
      rw [ho2]
      exact ⟨rfl, rfl, rfl, rfl, by rw [hv], fun h => by simp at h⟩

/-- C3 (witness): two concrete requests whose signatures differ only in
whitespace and case — and whose `min_confidence` differ — share the cached
raw result; the second is a cache hit with the tighter threshold applied as
a post-filter. -/
theorem product_cache_determinism_witness :
    (retrieveProductCandidates (fun _ _ =>
        ([{ product_id := "prod-0001", summary := "A winter jacket for cold trips",
            merchant := "M", link := "https://x/1", categories := ["stub"],
            confidence := 1 }], false)) 300
      (retrieveProductCandidates (fun _ _ =>
          ([{ product_id := "prod-0001", summary := "A winter jacket for cold trips",
              merchant := "M", link := "https://x/1", categories := ["stub"],
              confidence := 1 }], false)) 300 [] 0
        { query_signature := "Jacket  X", lang := some "EN" }).store 1
      { query_signature := "jacket x", lang := some "en",
        min_confidence := some 1 }).backendCalled = false ∧
    (retrieveProductCandidates (fun _ _ =>
        ([{ product_id := "prod-0001", summary := "A winter jacket for cold trips",
            merchant := "M", link := "https://x/1", categories := ["stub"],
            confidence := 1 }], false)) 300
      (retrieveProductCandidates (fun _ _ =>
          ([{ product_id := "prod-0001", summary := "A winter jacket for cold trips",
              merchant := "M", link := "https://x/1", categories := ["stub"],
              confidence := 1 }], false)) 300 [] 0
        { query_signature := "Jacket  X", lang := some "EN" }).store 1
      { query_signature := "jacket x", lang := some "en",
        min_confidence := some 1 }).resp.candidates =
      filterByMinConfidence
        [{ product_id := "prod-0001", summary := "A winter jacket for cold trips",
           merchant := "M", link := "https://x/1", categories := ["stub"],
           confidence := 1 }] (some 1) := by
  have h := product_cache_determinism
    (fun _ _ =>
      ([{ product_id := "prod-0001", summary := "A winter jacket for cold trips",
          merchant := "M", link := "https://x/1", categories := ["stub"],
          confidence := 1 }], false)) 300 [] 0 1
    { query_signature := "Jacket  X", lang := some "EN" }
    { query_signature := "jacket x", lang := some "en",
      min_confidence := some 1 }
    [{ product_id := "prod-0001", summary := "A winter jacket for cold trips",
       merchant := "M", link := "https://x/1", categories := ["stub"],
       confidence := 1 }]
    (by decide) rfl
  exact ⟨h.1, h.2.2.2.1⟩

/-- The parsed confidence is clamped into the unit interval on every path. -/
theorem parsedConfidence_bounds (raw : List (String × PVal)) :
    0 ≤ parsedConfidence raw ∧ parsedConfidence raw ≤ 1 := by
  unfold parsedConfidence
  split
  · constructor
    · exact le_max_left 0 _
    · exact max_le (by norm_num) (min_le_left 1 _)
  · split
    · constructor
      · exact le_max_left 0 _
      · exact max_le (by norm_num) (min_le_left 1 _)
    · constructor <;> norm_num

/-- Every element kept by the category filter is in the allow-list. -/
theorem filteredCategoryList_mem (v : Option PVal) :
    ∀ x ∈ (filteredCategoryList v).getD [], x ∈ TRAVEL_ITEM_CATEGORIES := by
  intro x hx
  unfold filteredCategoryList at hx
  rcases v with _ | v
  · simp at hx
  · rcases v with _ | _ | _ | _ | xs | _ <;> simp at hx
    obtain ⟨a, -, h1, rfl⟩ := hx
    exact h1

/-- `lst or None` keeps a sublist of the original elements. -/
theorem orNoneList_mem (o : Option (List String)) :
    ∀ x ∈ (orNoneList o).getD [], x ∈ o.getD [] := by
  intro x hx
  rcases o with _ | l
  · simpa [orNoneList] using hx
  · rcases l with _ | ⟨y, ys⟩
    · simpa [orNoneList] using hx
    · simpa [orNoneList] using hx

/-- The place-candidate slice keeps at most three raw entries. -/
theorem candidateSlice_length (v : Option PVal) (l : List PVal)
    (h : candidateSlice v = .ok l) : l.length ≤ 3 := by
  rcases v with _ | v
  · obtain rfl : ([] : List PVal) = l := by simpa [candidateSlice] using h
    simp
  · rcases v with _ | s | b | q | xs | fs
    · obtain rfl : ([] : List PVal) = l := by simpa [candidateSlice] using h
      simp
    · obtain rfl : ([] : List PVal) = l := by simpa [candidateSlice] using h
      simp
    · rcases b with _ | _
      · obtain rfl : ([] : List PVal) = l := by simpa [candidateSlice] using h
        simp
      · simp [candidateSlice] at h
    · by_cases hq : q = 0
      · obtain rfl : ([] : List PVal) = l := by
          simpa [candidateSlice, hq] using h
        simp
      · simp [candidateSlice, hq] at h
    · obtain rfl : xs.take 3 = l := by simpa [candidateSlice] using h
      simpa using List.length_take_le 3 xs
    · rcases fs with _ | ⟨f, fs⟩
      · obtain rfl : ([] : List PVal) = l := by simpa [candidateSlice] using h
        simp
      · simp [candidateSlice] at h

/-- The place-candidate loop yields at most one candidate per raw entry. -/
theorem buildPlaceCandidates_length :
    ∀ (l : List PVal) (res : List PlaceCandidateM),
      buildPlaceCandidates l = .ok res → res.length ≤ l.length := by
  intro l
  induction l with
  | nil =>
    intro res h
    obtain rfl : ([] : List PlaceCandidateM) = res := by
      simpa [buildPlaceCandidates] using h
    simp
  | cons c rest ih =>
    intro res h
    rcases hb : buildPlaceCandidate c with u | r
    · simp [buildPlaceCandidates, hb, Bind.bind, Except.bind] at h
    · rcases hr : buildPlaceCandidates rest with u | others
      · simp [buildPlaceCandidates, hb, hr, Bind.bind, Except.bind] at h
      · have hlen := ih others hr
        rcases r with _ | pc
        · obtain rfl : others = res := by
            simpa [buildPlaceCandidates, hb, hr, Bind.bind, Except.bind,
              Pure.pure, Except.pure] using h
          simp only [List.length_cons]
          omega
        · obtain rfl : pc :: others = res := by
            simpa [buildPlaceCandidates, hb, hr, Bind.bind, Except.bind,
              Pure.pure, Except.pure] using h
          simp only [List.length_cons]
          omega

/-- Destructor for a successful `Except` bind. -/
theorem except_bind_ok {α β : Type _} (e : Except Unit α) (f : α → Except Unit β)
    (s : β) (h : (e >>= f) = .ok s) : ∃ a, e = .ok a ∧ f a = .ok s := by
  cases e with
  | error u => simp [Bind.bind, Except.bind] at h
  | ok a => exact ⟨a, rfl, by simpa [Bind.bind, Except.bind] using h⟩

/-- `_parse_packing` echoes the mode, clamps confidence, filters all three
category lists to the allow-list and yields no place candidates. -/
theorem parsePacking_spec (raw : List (String × PVal)) (mode : VisionMode) :
    (parsePacking raw mode).mode = mode ∧
    0 ≤ (parsePacking raw mode).confidence ∧
    (parsePacking raw mode).confidence ≤ 1 ∧
    (∀ x ∈ (parsePacking raw mode).detected_items.getD [],
      x ∈ TRAVEL_ITEM_CATEGORIES) ∧
    (∀ x ∈ (parsePacking raw mode).missing_categories.getD [],
      x ∈ TRAVEL_ITEM_CATEGORIES) ∧
    (∀ x ∈ (parsePacking raw mode).suggested_categories_for_products.getD [],
      x ∈ TRAVEL_ITEM_CATEGORIES) ∧
    (parsePacking raw mode).place_candidates = none := by
  obtain ⟨h0, h1⟩ := parsedConfidence_bounds raw
  refine ⟨rfl, h0, h1, ?_, ?_, ?_, rfl⟩
  · intro x hx
    exact filteredCategoryList_mem (pget raw "detected_items") x
      (by simpa [parsePacking] using hx)
  · intro x hx
    exact filteredCategoryList_mem (pget raw "missing_categories") x
      (by simpa [parsePacking] using hx)
  · intro x hx
    exact filteredCategoryList_mem (pget raw "suggested_categories_for_products")
      x (orNoneList_mem _ x (by simpa [parsePacking] using hx))

/-- A successful `_parse_landmark` echoes the mode, clamps confidence,
carries no category lists and keeps at most three place candidates. -/
theorem parseLandmark_ok (raw : List (String × PVal)) (mode : VisionMode)
    (s : VisionSignalsM) (h : parseLandmark raw mode = .ok s) :
    s.mode = mode ∧ 0 ≤ s.confidence ∧ s.confidence ≤ 1 ∧
    s.detected_items = none ∧ s.missing_categories = none ∧
    s.suggested_categories_for_products = none ∧
    (s.place_candidates.getD []).length ≤ 3 := by
  unfold parseLandmark at h
  obtain ⟨craw, hcs, h⟩ := except_bind_ok _ _ _ h
  obtain ⟨pcs, hbp, h⟩ := except_bind_ok _ _ _ h
  obtain ⟨lh, hlh, h⟩ := except_bind_ok _ _ _ h
  obtain rfl : _ = s := by simpa [Pure.pure, Except.pure] using h
  obtain ⟨h0, h1⟩ := parsedConfidence_bounds raw
  refine ⟨rfl, h0, h1, rfl, rfl, rfl, ?_⟩
  have hc := candidateSlice_length _ _ hcs
  have hp := buildPlaceCandidates_length _ _ hbp
  rcases pcs with _ | ⟨pc, pcs⟩
  · simp
  · simp only [Option.getD_some]
    omega

/-- A successful `_parse_product_similarity` echoes the mode, clamps
confidence, carries no category lists and no place candidates. -/
theorem parseProductSimilarity_ok (raw : List (String × PVal))
    (mode : VisionMode) (s : VisionSignalsM)
    (h : parseProductSimilarity raw mode = .ok s) :
    s.mode = mode ∧ 0 ≤ s.confidence ∧ s.confidence ≤ 1 ∧
    s.detected_items = none ∧ s.missing_categories = none ∧
    s.suggested_categories_for_products = none ∧
    s.place_candidates = none := by
  unfold parseProductSimilarity at h
  obtain ⟨cat, hcat, h⟩ := except_bind_ok _ _ _ h
  obtain rfl : _ = s := by simpa [Pure.pure, Except.pure] using h
  obtain ⟨h0, h1⟩ := parsedConfidence_bounds raw
  exact ⟨rfl, h0, h1, rfl, rfl, rfl, rfl⟩

/-- C6: for every vision request and every backend behaviour — no API key,
API failure, undecodable output, or any decoded JSON — the result echoes
the requested mode, its confidence lies in `[0,1]`, its category lists
contain only members of the 18-item travel category set, and at most three
place candidates are kept. -/
theorem vision_mode_typing (mode : VisionMode) (hasClient : Bool)
    (api : Except String String) (extract : String → Option PVal) :
    (analyzeImage mode hasClient api extract).mode = mode ∧
    0 ≤ (analyzeImage mode hasClient api extract).confidence ∧
    (analyzeImage mode hasClient api extract).confidence ≤ 1 ∧
    (∀ x ∈ (analyzeImage mode hasClient api extract).detected_items.getD [],
      x ∈ TRAVEL_ITEM_CATEGORIES) ∧
    (∀ x ∈ (analyzeImage mode hasClient api extract).missing_categories.getD [],
      x ∈ TRAVEL_ITEM_CATEGORIES) ∧
    (∀ x ∈ (analyzeImage mode hasClient api
        extract).suggested_categories_for_products.getD [],
      x ∈ TRAVEL_ITEM_CATEGORIES) ∧
    ((analyzeImage mode hasClient api extract).place_candidates.getD []).length
      ≤ 3 := by
  unfold analyzeImage
  rcases hasClient with _ | _
  · -- no API key: the fixed mock signals
    cases mode with
    | packing =>
      simp only [Bool.not_false, if_true, mockSignals]
      refine ⟨trivial, by norm_num, by norm_num, ?_, ?_, ?_, by simp⟩
      · intro x hx
        simp at hx
        rcases hx with rfl | rfl | rfl <;> decide
      · intro x hx
        simp at hx
        subst hx
        decide
      · intro x hx
        simp at hx
        rcases hx with rfl | rfl <;> decide
    | landmark =>
      simp only [Bool.not_false, if_true, mockSignals]
      refine ⟨trivial, by norm_num, by norm_num, by simp, by simp, by simp,
        by simp⟩
    | product_similarity =>
      simp only [Bool.not_false, if_true, mockSignals]
      refine ⟨trivial, by norm_num, by norm_num, by simp, by simp, by simp,
        by simp⟩
  · simp only [Bool.not_true, Bool.false_eq_true, if_false]
    rcases api with e | text
    · simp [errorSignals]
    · rcases hx : extract text with _ | parsed
      · simp [hx, errorSignals]
      · rcases parsed with _ | sv | bv | qv | xs | fields
        · simp [hx, errorSignals]
        · simp [hx, errorSignals]
        · simp [hx, errorSignals]
        · simp [hx, errorSignals]
        · simp [hx, errorSignals]
        · rcases fields with _ | ⟨f, fs⟩
          · simp [hx, errorSignals]
          · simp only [hx]
            cases mode with
            | packing =>
              obtain ⟨hm, h0, h1, hd, hms, hsg, hpc⟩ :=
                parsePacking_spec (f :: fs) VisionMode.packing
              exact ⟨hm, h0, h1, hd, hms, hsg, by simp [hpc]⟩
            | landmark =>
              rcases hp : parseLandmark (f :: fs) VisionMode.landmark with u | s
              · simp [hp, errorSignals]
              · simp only [hp]
                obtain ⟨hm, h0, h1, hd, hms, hsg, hpc⟩ :=
                  parseLandmark_ok (f :: fs) _ s hp
                exact ⟨hm, h0, h1, by simp [hd], by simp [hms], by simp [hsg],
                  hpc⟩
            | product_similarity =>
              rcases hp : parseProductSimilarity (f :: fs)
                  VisionMode.product_similarity with u | s
              · simp [hp, errorSignals]
              · simp only [hp]
                obtain ⟨hm, h0, h1, hd, hms, hsg, hpc⟩ :=
                  parseProductSimilarity_ok (f :: fs) _ s hp
                exact ⟨hm, h0, h1, by simp [hd], by simp [hms], by simp [hsg],
                  by simp [hpc]⟩

/-- C6 (witness): an undecodable model output still echoes the requested
mode. -/
theorem vision_mode_typing_witness :
    (analyzeImage VisionMode.landmark true (.ok "not json")
        (fun _ => none)).mode = VisionMode.landmark :=
  (vision_mode_typing VisionMode.landmark true (.ok "not json")
    (fun _ => none)).1

/-- Membership is invariant under `sorted(...)`. -/
theorem mem_sortStrings (l : List String) (a : String) :
    a ∈ sortStrings l ↔ a ∈ l :=
  (List.mergeSort_perm l _).mem_iff

/-- `sorted(...)` is sorted by `≤`. -/
theorem sortStrings_sorted (l : List String) :
    List.Pairwise (fun a b : String => a ≤ b) (sortStrings l) := by
  have h := @List.sorted_mergeSort String
    (fun a b : String => decide (a ≤ b))
    (fun a b c hab hbc => by
      simp only [decide_eq_true_eq] at *
      exact le_trans hab hbc)
    (fun a b => by
      simp only [Bool.or_eq_true, decide_eq_true_eq]
      exact le_total a b)
    l
  exact h.imp (by simp)

/-- `sorted(...)` preserves duplicate-freeness. -/
theorem sortStrings_nodup (l : List String) (h : l.Nodup) :
    (sortStrings l).Nodup :=
  ((List.mergeSort_perm l _).nodup_iff).2 h

/-- `sorted(set(...))` is duplicate-free. -/
theorem sortedDedup_nodup (l : List String) : (sortedDedup l).Nodup :=
  sortStrings_nodup _ (List.nodup_dedup l)

/-- Membership in `sorted(set(...))`. -/
theorem mem_sortedDedup (l : List String) (a : String) :
    a ∈ sortedDedup l ↔ a ∈ l := by
  rw [sortedDedup, mem_sortStrings, List.mem_dedup]

/-- `sorted(set(...))` is strictly sorted. -/
theorem sortedDedup_sorted_lt (l : List String) :
    List.Pairwise (fun a b : String => a < b) (sortedDedup l) := by
  have hle : List.Pairwise (fun a b : String => a ≤ b) (sortedDedup l) :=
    sortStrings_sorted _
  have hne : List.Pairwise (fun a b : String => a ≠ b) (sortedDedup l) :=
    sortedDedup_nodup l
  exact (hle.and hne).imp fun h => lt_of_le_of_ne h.1 h.2

/-- `sorted(set(...))` depends only on membership. -/
theorem sortedDedup_congr (l1 l2 : List String)
    (h : ∀ a, a ∈ l1 ↔ a ∈ l2) : sortedDedup l1 = sortedDedup l2 := by
  refine @List.eq_of_perm_of_sorted String (fun a b : String => a ≤ b) _ _ _ ?_
    (sortStrings_sorted _) (sortStrings_sorted _)
  refine (List.perm_ext_iff_of_nodup (sortedDedup_nodup l1)
    (sortedDedup_nodup l2)).2 fun a => ?_
  rw [mem_sortedDedup, mem_sortedDedup]
  exact h a

/-- Re-sorting an already sorted-deduplicated left part is the identity on
the combined set. -/
theorem sortedDedup_idem_append (X y : List String) :
    sortedDedup (sortedDedup X ++ y) = sortedDedup (X ++ y) :=
  sortedDedup_congr _ _ fun a => by
    simp [List.mem_append, mem_sortedDedup]

/-- A key looks up to nothing iff it is not among the stored keys. -/
theorem alookup_eq_none_iff {β : Type _} :
    ∀ (m : List (String × β)) (k : String),
      alookup m k = none ↔ k ∉ m.map Prod.fst := by
  intro m
  induction m with
  | nil => intro k; simp [alookup]
  | cons kv rest ih =>
    intro k
    by_cases hk : kv.1 = k
    · simp [alookup, hk]
    · simp only [alookup, if_neg hk, List.map_cons, List.mem_cons]
      rw [ih k]
      constructor
      · rintro h (h1 | h2)
        · exact hk h1.symm
        · exact h h2
      · intro h h2
        exact h (Or.inr h2)

/-- Updating a key does not change the stored key list. -/
theorem aupdate_map_fst {β : Type _} :
    ∀ (m : List (String × β)) (k : String) (v : β),
      (aupdate m k v).map Prod.fst = m.map Prod.fst := by
  intro m
  induction m with
  | nil => intro k v; rfl
  | cons kv rest ih =>
    intro k v
    by_cases hk : kv.1 = k
    · simp [aupdate, hk]
    · simp [aupdate, if_neg hk, ih]

/-- Updating one key leaves the other keys' bindings alone. -/
theorem alookup_aupdate_ne {β : Type _} :
    ∀ (m : List (String × β)) (k k' : String) (v : β), k' ≠ k →
      alookup (aupdate m k v) k' = alookup m k' := by
  intro m
  induction m with
  | nil => intro k k' v _; rfl
  | cons kv rest ih =>
    intro k k' v h
    by_cases hk : kv.1 = k
    · have hne : kv.1 ≠ k' := fun hc => h (hc ▸ hk)
      simp [aupdate, alookup, hk, hne, Ne.symm h]
    · by_cases hk' : kv.1 = k'
      · simp [aupdate, alookup, if_neg hk, hk', h]
      · simp [aupdate, alookup, if_neg hk, if_neg hk', ih k k' v h]

/-- Lookup distributes over append. -/
theorem alookup_append {β : Type _} :
    ∀ (a c : List (String × β)) (k : String),
      alookup (a ++ c) k =
        match alookup a k with
        | some v => some v
        | none => alookup c k := by
  intro a
  induction a with
  | nil => intro c k; rfl
  | cons kv rest ih =>
    intro c k
    by_cases hk : kv.1 = k
    · simp [alookup, hk]
    · simp only [alookup, List.cons_append, if_neg hk]
      exact ih c k

/-- The property-merge loop of `merge_graph` realises first-seen-per-key
lookup over the concatenation. -/
theorem prop_merge_lookup {α : Type _} :
    ∀ (np acc : List (String × α)) (k : String),
      alookup
        (np.foldl
          (fun acc kv =>
            if (alookup acc kv.1).isSome then acc else acc ++ [kv])
          acc) k =
      alookup (acc ++ np) k := by
  intro np
  induction np with
  | nil => intro acc k; simp
  | cons kv rest ih =>
    intro acc k
    by_cases hp : (alookup acc kv.1).isSome
    · rw [List.foldl_cons, if_pos hp, ih]
      rw [alookup_append, alookup_append]
      rcases ha : alookup acc k with _ | v
      · simp only [alookup]
        by_cases hk : kv.1 = k
        · rw [hk] at hp
          rw [ha] at hp
          simp at hp
        · rw [if_neg hk]
      · rfl
    · rw [List.foldl_cons, if_neg hp, ih]
      rw [List.append_assoc]
      rfl

/-- Fusing the nested node loops of `merge_graph` into one fold over the
concatenated node lists. -/
theorem nodes_fold_fusion {α : Type _} :
    ∀ (exs : List (GraphExtractionM α)) (init : List (String × GNode α)),
      exs.foldl (fun m ex => ex.nodes.foldl insertNode m) init =
        (exs.flatMap GraphExtractionM.nodes).foldl insertNode init := by
  intro exs
  induction exs with
  | nil => intro init; rfl
  | cons ex rest ih =>
    intro init
    simp only [List.foldl_cons, List.flatMap_cons, List.foldl_append]
    exact ih _

/-- Fusing the nested edge loops of `merge_graph`. -/
theorem edges_fold_fusion {α : Type _} [DecidableEq α] :
    ∀ (exs : List (GraphExtractionM α))
      (init : List (String × String × String × Int × Int) × List (GEdge α)),
      exs.foldl (fun st ex => ex.edges.foldl dedupeEdgeStep st) init =
        (exs.flatMap GraphExtractionM.edges).foldl dedupeEdgeStep init := by
  intro exs
  induction exs with
  | nil => intro init; rfl
  | cons ex rest ih =>
    intro init
    simp only [List.foldl_cons, List.flatMap_cons, List.foldl_append]
    exact ih _

/-- Invariant of the edge-dedup loop: the key set tracks the kept edges,
keys stay duplicate-free and only grow, kept edges come from the input, and
every input edge's key is represented. -/
theorem dedupeEdges_spec {α : Type _} [DecidableEq α] :
    ∀ (l : List (GEdge α))
      (keys : List (String × String × String × Int × Int)) (out : List (GEdge α)),
      keys = out.map edgeKey → keys.Nodup →
      (l.foldl dedupeEdgeStep (keys, out)).1 =
          (l.foldl dedupeEdgeStep (keys, out)).2.map edgeKey ∧
        (l.foldl dedupeEdgeStep (keys, out)).1.Nodup ∧
        (∀ e ∈ (l.foldl dedupeEdgeStep (keys, out)).2, e ∈ out ∨ e ∈ l) ∧
        (∀ e ∈ l, edgeKey e ∈ (l.foldl dedupeEdgeStep (keys, out)).1) ∧
        (∀ k ∈ keys, k ∈ (l.foldl dedupeEdgeStep (keys, out)).1) := by
  intro l
  induction l with
  | nil =>
    intro keys out h1 h2
    exact ⟨h1, h2, fun e he => Or.inl he, fun e he => absurd he (by simp),
      fun k hk => hk⟩
  | cons e rest ih =>
    intro keys out h1 h2
    by_cases hmem : edgeKey e ∈ keys
    · have hstep : dedupeEdgeStep (keys, out) e = (keys, out) := by
        simp [dedupeEdgeStep, hmem]
      rw [List.foldl_cons, hstep]
      obtain ⟨g1, g2, g3, g4, g5⟩ := ih keys out h1 h2
      refine ⟨g1, g2, fun x hx => (g3 x hx).imp id (List.mem_cons_of_mem e),
        ?_, g5⟩
      intro x hx
      rcases List.mem_cons.1 hx with rfl | hx
      · exact g5 _ hmem
      · exact g4 x hx
    · have hstep : dedupeEdgeStep (keys, out) e =
          (keys ++ [edgeKey e], out ++ [e]) := by
        simp [dedupeEdgeStep, hmem]
      rw [List.foldl_cons, hstep]
      have h1' : keys ++ [edgeKey e] = (out ++ [e]).map edgeKey := by
        simp [h1]
      have h2' : (keys ++ [edgeKey e]).Nodup := by
        refine List.Nodup.append h2 (by simp) ?_
        intro a ha hb
        simp only [List.mem_singleton] at hb
        exact hmem (hb ▸ ha)
      obtain ⟨g1, g2, g3, g4, g5⟩ := ih _ _ h1' h2'
      refine ⟨g1, g2, ?_, ?_, ?_⟩
      · intro x hx
        rcases g3 x hx with hx' | hx'
        · rcases List.mem_append.1 hx' with hx'' | hx''
          · exact Or.inl hx''
          · simp only [List.mem_singleton] at hx''
            exact Or.inr (hx'' ▸ List.mem_cons_self e rest)
        · exact Or.inr (List.mem_cons_of_mem e hx')
      · intro x hx
        rcases List.mem_cons.1 hx with rfl | hx
        · exact g5 _ (by simp)
        · exact g4 x hx
      · intro k hk
        exact g5 k (List.mem_append_left _ hk)

/-- One node-loop iteration of `merge_graph` preserves the merge invariant:
keys stay duplicate-free, every binding's node carries its key as `id`, and
each bound node satisfies the first-seen/sorted-union specification with
respect to the occurrences processed so far. -/
theorem insertNode_spec {α : Type _} (m : List (String × GNode α))
    (processed : List (GNode α)) (n : GNode α)
    (hkeys : (m.map Prod.fst).Nodup)
    (hbind : ∀ k nd, alookup m k = some nd → nd.id = k)
    (hspec : ∀ k, (match alookup m k with
      | some nd => NodeMergeSpec (processed.filter fun x => x.id == k) nd
      | none => processed.filter (fun x => x.id == k) = [])) :
    ((insertNode m n).map Prod.fst).Nodup ∧
    (∀ k nd, alookup (insertNode m n) k = some nd → nd.id = k) ∧
    (∀ k, (match alookup (insertNode m n) k with
      | some nd =>
        NodeMergeSpec ((processed ++ [n]).filter fun x => x.id == k) nd
      | none => (processed ++ [n]).filter (fun x => x.id == k) = [])) := by
  unfold insertNode
  rcases he : alookup m n.id with _ | existing
  · -- fresh id: append a new binding
    simp only
    refine ⟨?_, ?_, ?_⟩
    · rw [List.map_append]
      refine List.Nodup.append hkeys (by simp) ?_
      intro a ha hb
      simp only [List.map_cons, List.map_nil, List.mem_singleton] at hb
      exact (alookup_eq_none_iff m n.id).1 he (hb ▸ ha)
    · intro k nd h
      rw [alookup_append] at h
      rcases ha : alookup m k with _ | v
      · rw [ha] at h
        simp only [alookup] at h
        split at h
        · obtain rfl : n = nd := by simpa using h
          assumption
        · simp at h
      · rw [ha] at h
        obtain rfl : v = nd := by simpa using h
        exact hbind _ _ ha
    · intro k
      rw [alookup_append]
      rcases ha : alookup m k with _ | nd0
      · have hfil : processed.filter (fun x => x.id == k) = [] := by
          have hs := hspec k
          rw [ha] at hs
          exact hs
        by_cases hk : n.id = k
        · simp only [alookup, if_pos hk]
          have hfil2 : (processed ++ [n]).filter (fun x => x.id == k) = [n] := by
            rw [List.filter_append, hfil]
            simp [hk]
          rw [hfil2]
          exact ⟨n, [], rfl, rfl, rfl, rfl, fun _ => rfl,
            fun hc => absurd rfl hc, fun k' => by simp⟩
        · simp only [alookup, if_neg hk]
          rw [List.filter_append, hfil]
          simp [hk]
      · have hk : ¬(n.id = k) := by
          intro hc
          rw [hc] at he
          rw [he] at ha
          cases ha
        have hs := hspec k
        rw [ha] at hs
        simp only [alookup, if_neg hk]
        have hfil2 : (processed ++ [n]).filter (fun x => x.id == k) =
            processed.filter (fun x => x.id == k) := by
          rw [List.filter_append]
          simp [hk]
        rw [hfil2]
        exact hs
  · -- existing id: merge in place
    simp only
    have hmid : (mergeNodeInto existing n).id = existing.id := rfl
    refine ⟨?_, ?_, ?_⟩
    · rw [aupdate_map_fst]; exact hkeys
    · intro k nd h
      by_cases hk : k = n.id
      · subst hk
        rw [alookup_aupdate_self m n.id _ (by simp [he])] at h
        obtain rfl : mergeNodeInto existing n = nd := by simpa using h
        rw [hmid]
        exact hbind n.id existing he
      · rw [alookup_aupdate_ne m n.id k _ hk] at h
        exact hbind k nd h
    · intro k
      by_cases hk : k = n.id
      · subst hk
        rw [alookup_aupdate_self m n.id _ (by simp [he])]
        have hs := hspec n.id
        rw [he] at hs
        obtain ⟨h, t, hocc, hid, hname, htype, hal1, hal2, hprops⟩ := hs
        have hfil2 : (processed ++ [n]).filter (fun x => x.id == n.id) =
            h :: (t ++ [n]) := by
          rw [List.filter_append, hocc]
          simp
        rw [hfil2]
        refine ⟨h, t ++ [n], rfl, ?_, ?_, ?_, ?_, ?_, ?_⟩
        · rw [hmid]; exact hid
        · exact hname
        · exact htype
        · intro hc; exact absurd hc (by simp)
        · intro _
          show sortedDedup (existing.aliases ++ n.aliases) = _
          rcases t with _ | ⟨t0, ts⟩
          · rw [hal1 rfl]
            refine sortedDedup_congr _ _ fun a => ?_
            simp
          · rw [hal2 (by simp), sortedDedup_idem_append]
            refine sortedDedup_congr _ _ fun a => ?_
            simp
        · intro k'
          have hflat : (h :: (t ++ [n])).flatMap GNode.properties =
              (h :: t).flatMap GNode.properties ++ n.properties := by
            simp
          calc alookup (mergeNodeInto existing n).properties k' =
              alookup (existing.properties ++ n.properties) k' :=
                prop_merge_lookup n.properties existing.properties k'
            _ = _ := by
                rw [alookup_append, hflat, alookup_append, hprops k']
      · rw [alookup_aupdate_ne m n.id k _ hk]
        have hfil2 : (processed ++ [n]).filter (fun x => x.id == k) =
            processed.filter (fun x => x.id == k) := by
          rw [List.filter_append]
          have : ¬(n.id = k) := fun hc => hk hc.symm
          simp [this]
        rw [hfil2]
        exact hspec k

/-- The node loop of `merge_graph` over any node list preserves the merge
invariant, accumulating the processed occurrences. -/
theorem insertFold_spec {α : Type _} :
    ∀ (l : List (GNode α)) (m : List (String × GNode α))
      (processed : List (GNode α)),
      ((m.map Prod.fst).Nodup) →
      (∀ k nd, alookup m k = some nd → nd.id = k) →
      (∀ k, (match alookup m k with
        | some nd => NodeMergeSpec (processed.filter fun x => x.id == k) nd
        | none => processed.filter (fun x => x.id == k) = [])) →
      (((l.foldl insertNode m).map Prod.fst).Nodup) ∧
      (∀ k nd, alookup (l.foldl insertNode m) k = some nd → nd.id = k) ∧
      (∀ k, (match alookup (l.foldl insertNode m) k with
        | some nd =>
          NodeMergeSpec ((processed ++ l).filter fun x => x.id == k) nd
        | none => (processed ++ l).filter (fun x => x.id == k) = [])) := by
  intro l
  induction l with
  | nil =>
    intro m processed h1 h2 h3
    rw [List.foldl_nil, List.append_nil]
    exact ⟨h1, h2, h3⟩
  | cons n rest ih =>
    intro m processed h1 h2 h3
    obtain ⟨g1, g2, g3⟩ := insertNode_spec m processed n h1 h2 h3
    have hres := ih (insertNode m n) (processed ++ [n]) g1 g2 g3
    rw [List.foldl_cons]
    rw [show processed ++ n :: rest = (processed ++ [n]) ++ rest by simp]
    exact hres

/-- Looking up the sorted keys reproduces exactly the keys as ids. -/
theorem filterMap_alookup_map_id {α : Type _} (m : List (String × GNode α))
    (hbind : ∀ k nd, alookup m k = some nd → nd.id = k) :
    ∀ ks : List String, (∀ k ∈ ks, k ∈ m.map Prod.fst) →
      ((ks.filterMap fun k => alookup m k).map (fun nd => nd.id)) = ks := by
  intro ks
  induction ks with
  | nil => intro _; rfl
  | cons k rest ih =>
    intro hmem
    have hk : k ∈ m.map Prod.fst := hmem k (List.mem_cons_self k rest)
    obtain ⟨nd, hnd⟩ : ∃ nd, alookup m k = some nd := by
      rcases hl : alookup m k with _ | nd
      · exact absurd hk ((alookup_eq_none_iff m k).1 hl)
      · exact ⟨nd, rfl⟩
    simp [List.filterMap_cons, hnd, hbind k nd hnd,
      ih fun x hx => hmem x (List.mem_cons_of_mem _ hx)]

/-- C7 (amended): `merge_graph` is a deterministic function of the input
list whose output lists nodes strictly sorted by `id`; every output node
satisfies the first-seen/sorted-union merge specification with respect to
its occurrences in input order; every input node id is represented; and
output edges are duplicate-free by `(type, source, target, startSec,
endSec)`, drawn from the input, and complete for the input keys.
(Multiset-equal but reordered inputs may differ — see the counterexample.) -/
theorem graph_merge_amended {α : Type _} [DecidableEq α]
    (exs : List (GraphExtractionM α)) :
    List.Pairwise (fun a b : GNode α => a.id < b.id) (mergeGraph exs).nodes ∧
    (∀ nd ∈ (mergeGraph exs).nodes,
      NodeMergeSpec ((exs.flatMap GraphExtractionM.nodes).filter
        fun x => x.id == nd.id) nd) ∧
    (∀ n ∈ exs.flatMap GraphExtractionM.nodes,
      ∃ nd ∈ (mergeGraph exs).nodes, nd.id = n.id) ∧
    ((mergeGraph exs).edges.map edgeKey).Nodup ∧
    (∀ e ∈ (mergeGraph exs).edges, e ∈ exs.flatMap GraphExtractionM.edges) ∧
    (∀ e ∈ exs.flatMap GraphExtractionM.edges,
      edgeKey e ∈ (mergeGraph exs).edges.map edgeKey) := by
  obtain ⟨h1, h2, h3⟩ := insertFold_spec (exs.flatMap GraphExtractionM.nodes)
    ([] : List (String × GNode α)) []
    (by simp)
    (by intro k nd h; simp [alookup] at h)
    (by intro k; simp [alookup])
  have hM : (mergeGraph exs).nodes =
      (sortStrings (((exs.flatMap GraphExtractionM.nodes).foldl insertNode
        []).map Prod.fst)).filterMap
        (fun k => alookup
          ((exs.flatMap GraphExtractionM.nodes).foldl insertNode []) k) := by
    simp [mergeGraph, nodes_fold_fusion]
  have hE : (mergeGraph exs).edges =
      ((exs.flatMap GraphExtractionM.edges).foldl dedupeEdgeStep ([], [])).2 := by
    simp [mergeGraph, edges_fold_fusion]
  have hks_nodup :
      (sortStrings (((exs.flatMap GraphExtractionM.nodes).foldl insertNode
        []).map Prod.fst)).Nodup := sortStrings_nodup _ h1
  have hks_le := sortStrings_sorted
    (((exs.flatMap GraphExtractionM.nodes).foldl insertNode []).map Prod.fst)
  have hks_lt : List.Pairwise (fun a b : String => a < b)
      (sortStrings (((exs.flatMap GraphExtractionM.nodes).foldl insertNode
        []).map Prod.fst)) :=
    (hks_le.and hks_nodup).imp fun h => lt_of_le_of_ne h.1 h.2
  have hids := filterMap_alookup_map_id _ h2
    (sortStrings (((exs.flatMap GraphExtractionM.nodes).foldl insertNode
      []).map Prod.fst))
    (fun k hk => (mem_sortStrings _ _).1 hk)
  refine ⟨?_, ?_, ?_, ?_, ?_, ?_⟩
  · rw [hM]
    rw [← hids] at hks_lt
    exact List.pairwise_map.1 hks_lt
  · intro nd hnd
    rw [hM] at hnd
    obtain ⟨k, hk, hlk⟩ := List.mem_filterMap.1 hnd
    have hidk : nd.id = k := h2 k nd hlk
    have hs := h3 k
    rw [hlk] at hs
    rw [hidk]
    simpa using hs
  · intro n hn
    rcases hl : alookup
        ((exs.flatMap GraphExtractionM.nodes).foldl insertNode []) n.id
        with _ | nd
    · have hs := h3 n.id
      rw [hl] at hs
      simp only [List.nil_append] at hs
      have hmemf : n ∈ (exs.flatMap GraphExtractionM.nodes).filter
          (fun x => x.id == n.id) :=
        List.mem_filter.2 ⟨hn, by simp⟩
      rw [hs] at hmemf
      cases hmemf
    · refine ⟨nd, ?_, h2 _ _ hl⟩
      rw [hM]
      refine List.mem_filterMap.2 ⟨n.id, ?_, hl⟩
      rw [mem_sortStrings]
      by_contra hmem
      rw [(alookup_eq_none_iff _ n.id).2 hmem] at hl
      cases hl
  · obtain ⟨g1, g2, g3, g4, g5⟩ := dedupeEdges_spec
      (exs.flatMap GraphExtractionM.edges) [] [] (by simp) (by simp)
    rw [hE, ← g1]
    exact g2
  · intro e he
    obtain ⟨g1, g2, g3, g4, g5⟩ := dedupeEdges_spec
      (exs.flatMap GraphExtractionM.edges) [] [] (by simp) (by simp)
    rw [hE] at he
    rcases g3 e he with hc | hc
    · cases hc
    · exact hc
  · intro e he
    obtain ⟨g1, g2, g3, g4, g5⟩ := dedupeEdges_spec
      (exs.flatMap GraphExtractionM.edges) [] [] (by simp) (by simp)
    rw [hE, ← g1]
    exact g4 e he

/-- C7 is refuted as stated: the two input lists `[exA7, exB7]` and
`[exB7, exA7]` are equal as multisets of chunk extractions, yet
`merge_graph` produces different merged graphs, because the merged node for
a repeated id keeps the `name` of its first occurrence in input order. -/
theorem graph_merge_counterexample :
    (↑[exA7, exB7] : Multiset (GraphExtractionM String)) = ↑[exB7, exA7] ∧
    mergeGraph [exA7, exB7] ≠ mergeGraph [exB7, exA7] := by
  constructor
  · exact Multiset.coe_eq_coe.2 (List.Perm.swap exB7 exA7 [])
  · have h1 : (mergeGraph [exA7, exB7]).nodes.map GNode.name = ["X1"] := by
      simp [mergeGraph, exA7, exB7, insertNode, alookup, aupdate,
        mergeNodeInto, sortStrings]
    have h2 : (mergeGraph [exB7, exA7]).nodes.map GNode.name = ["X2"] := by
      simp [mergeGraph, exA7, exB7, insertNode, alookup, aupdate,
        mergeNodeInto, sortStrings]
    intro h
    rw [h, h2] at h1
    simp at h1
